/-
  Verification of the triangle-mesh repair core (admesh) of this repository:
  a shallow embedding of `src/admesh/connect.cpp` and `src/admesh/stl_io.cpp`
  in Lean 4, and proofs of the specified invariants and properties.

  Modelling conventions:
  * 32-bit float coordinates are modelled by their bit patterns (`Nat`,
    understood modulo 2^32 where it matters); the repair core only ever
    compares coordinates for equality and lexicographic order, never does
    arithmetic on them, so the bit-pattern view captures every operation the
    verified claims depend on.  Vertex equality in the model is structural
    (bytewise) equality of the three bit patterns.
  * `int` facet indices are modelled as `Int` with the sentinel `-1` kept
    literal, exactly as in the C code.
  * Arrays are modelled as `List`s; swap-with-last removal and in-place
    updates are modelled with `List.set` / `List.dropLast`.
-/
import Mathlib

set_option autoImplicit false

namespace Admesh

/-- A 32-bit word: the bit pattern of one `float` coordinate. -/
abbrev Word := Nat

/-- `stl_vertex`: three 32-bit float coordinates, modelled by bit patterns. -/
structure stl_vertex where
  x : Word
  y : Word
  z : Word
deriving DecidableEq, Repr

/-- `stl_facet`: a stored normal, three vertices in winding order, and the
2-byte attribute (`extra`), as in `stl.h`. -/
structure stl_facet where
  normal : stl_vertex
  v0 : stl_vertex
  v1 : stl_vertex
  v2 : stl_vertex
  extra : Nat
deriving DecidableEq, Repr

namespace stl_facet

/-- Vertex access by slot index `j % 3`, as the C code's `facet.vertex[j]`. -/
def vertex (f : stl_facet) (j : Nat) : stl_vertex :=
  match j % 3 with
  | 0 => f.v0
  | 1 => f.v1
  | _ => f.v2

end stl_facet

/-! ## C5: hash-table sizing (`hash_size_from_nr_faces`, connect.cpp:144-152) -/

/-- The prime table of `hash_size_from_nr_faces`. -/
def hash_primes : List Nat :=
  [98317, 196613, 393241, 786433, 1572869, 3145739, 6291469, 12582917,
   25165843, 50331653, 100663319, 201326611, 402653189, 805306457, 1610612741]

/-- `std::upper_bound` over the sorted `hash_primes` table: the first tabulated
prime strictly greater than `key`, or, past the end, `primes.back()`. -/
def hash_prime_upper_bound (key : Nat) : Nat :=
  match hash_primes.find? (fun p => decide (key < p)) with
  | some p => p
  | none => 1610612741

/-- `hash_size_from_nr_faces`: `hash_prime_upper_bound` applied to
`nr_faces * 3 * 2 - 1` evaluated in `size_t` arithmetic (64-bit wraparound, so
`nr_faces = 0` gives `2^64 − 1`). -/
def hash_size_from_nr_faces (nr_faces : Nat) : Nat :=
  hash_prime_upper_bound ((nr_faces * 3 * 2 + 18446744073709551615) % 18446744073709551616)

/-! ## C8: negative-zero normalization (`stl_load_edge_exact`, connect.cpp:110-142) -/

/-- The little-endian byte test `p[0..2] = 0 ∧ p[3] = 0x80` of
`stl_load_edge_exact` recognizes exactly the word `0x80000000`
(the IEEE-754 single-precision negative zero); the normalization rewrites it
to `0x00000000`. -/
def normalize_negative_zero (w : Word) : Word :=
  if w = 0x80000000 then 0 else w

/-- Normalization of all six 32-bit words of an edge key. -/
def normalize_key (key : List Word) : List Word :=
  key.map normalize_negative_zero

/-- Denotational equality of two float bit patterns under IEEE-754 `==` as far
as the repair core can observe it on non-NaN data: two patterns denote the
same coordinate value exactly when they are the same pattern or both are
zeros (`+0.0 == -0.0`). -/
def float_value_eq (a b : Word) : Bool :=
  a = b || ((a = 0 || a = 0x80000000) && (b = 0 || b = 0x80000000))

end Admesh

namespace Admesh

/-! ## Theorems for C5 and C8 -/

/-- C5: for every facet count `N` of a mesh loaded from a 4-byte facet count
(`N < 2^32`), the table size chosen by `hash_size_from_nr_faces` is a prime of
the table; it is strictly greater than `6·N − 1` (as integers) or equal to the
largest tabulated prime `1610612741`; and whenever `6·N − 1` exceeds the
largest tabulated prime the largest is used. -/
theorem hash_size_spec (N : Nat) (hN : N < 4294967296) :
    hash_size_from_nr_faces N ∈ hash_primes ∧
    ((6 * (N : Int) - 1 < (hash_size_from_nr_faces N : Int)) ∨
      hash_size_from_nr_faces N = 1610612741) ∧
    (6 * (N : Int) - 1 > 1610612741 → hash_size_from_nr_faces N = 1610612741) := by
  rcases Nat.eq_zero_or_pos N with h0 | hpos
  · subst h0
    exact ⟨by decide, Or.inr (by decide), fun _ => by decide⟩
  · have hkey : (N * 3 * 2 + 18446744073709551615) % 18446744073709551616 = N * 6 - 1 := by
      have h1 : N * 3 * 2 + 18446744073709551615 =
          (N * 6 - 1) + 1 * 18446744073709551616 := by omega
      rw [h1, Nat.add_mul_mod_self_right]
      exact Nat.mod_eq_of_lt (by omega)
    rw [hash_size_from_nr_faces, hkey]
    by_cases hbig : N * 6 - 1 < 1610612741
    · -- some prime in the table is greater than the key: find? succeeds and
      -- returns an element of the table satisfying the predicate
      have hfind : ∃ p, hash_primes.find? (fun p => decide (N * 6 - 1 < p)) = some p := by
        rcases hp : hash_primes.find? (fun p => decide (N * 6 - 1 < p)) with _ | p
        · exfalso
          have hmem : (1610612741 : Nat) ∈ hash_primes := by decide
          have := List.find?_eq_none.mp hp 1610612741 hmem
          simp at this
          omega
        · exact ⟨p, rfl⟩
      rcases hfind with ⟨p, hp⟩
      have hmem := List.mem_of_find?_eq_some hp
      have hpred := List.find?_some hp
      simp only [decide_eq_true_eq] at hpred
      have hval : hash_prime_upper_bound (N * 6 - 1) = p := by
        rw [hash_prime_upper_bound, hp]
      rw [hval]
      exact ⟨hmem, Or.inl (by omega), fun hgt => by omega⟩
    · -- the key is at least every prime ⇒ find? fails and the last prime is used
      have hfind : hash_primes.find? (fun p => decide (N * 6 - 1 < p)) = none := by
        apply List.find?_eq_none.mpr
        intro p hpmem
        simp only [decide_eq_true_eq]
        intro hlt
        have : p ≤ 1610612741 := by
          fin_cases hpmem <;> norm_num
        omega
      have hval : hash_prime_upper_bound (N * 6 - 1) = 1610612741 := by
        rw [hash_prime_upper_bound, hfind]
      rw [hval]
      exact ⟨by decide, Or.inr rfl, fun _ => rfl⟩

/-- Witness for C5 at the concrete facet count 100. -/
theorem hash_size_spec_witness :
    hash_size_from_nr_faces 100 ∈ hash_primes ∧
    ((6 * (100 : Int) - 1 < (hash_size_from_nr_faces 100 : Int)) ∨
      hash_size_from_nr_faces 100 = 1610612741) ∧
    (6 * (100 : Int) - 1 > 1610612741 → hash_size_from_nr_faces 100 = 1610612741) :=
  hash_size_spec 100 (by norm_num)

/-- A normalized word always denotes the same float value as the original:
either it is unchanged, or both are zeros. -/
theorem float_value_eq_normalize (w : Word) :
    float_value_eq (normalize_negative_zero w) w = true := by
  unfold normalize_negative_zero float_value_eq
  by_cases h : w = 2147483648
  · subst h
    decide
  · simp [h]

/-- C8: normalizing negative zero in an edge key is idempotent, and the
rewritten key denotes the same vertex coordinates word for word
(`−0.0` equals `+0.0` as a float value). -/
theorem normalize_key_idempotent_and_value_preserving (key : List Word) :
    normalize_key (normalize_key key) = normalize_key key ∧
    ∀ i : Nat, i < key.length →
      float_value_eq ((normalize_key key).getD i 0) (key.getD i 0) = true := by
  constructor
  · simp only [normalize_key, List.map_map]
    apply List.map_congr_left
    intro a _
    simp only [Function.comp_apply, normalize_negative_zero]
    by_cases h : a = 0x80000000 <;> simp [h]
  · intro i hi
    have : (normalize_key key).getD i 0 = normalize_negative_zero (key.getD i 0) := by
      simp only [normalize_key]
      rw [List.getD_eq_getElem _ _ (by simpa using hi), List.getD_eq_getElem _ _ hi]
      simp
    rw [this]
    exact float_value_eq_normalize _

/-- Witness for C8 at the concrete one-word key holding a negative zero. -/
theorem normalize_key_witness :
    normalize_key (normalize_key [2147483648]) = normalize_key [2147483648] ∧
    float_value_eq ((normalize_key [2147483648]).getD 0 0) (([2147483648] : List Word).getD 0 0)
      = true :=
  ⟨(normalize_key_idempotent_and_value_preserving [2147483648]).1,
   (normalize_key_idempotent_and_value_preserving [2147483648]).2 0 (by decide)⟩

end Admesh

namespace Admesh

/-! ## C7: edge matching in the hash table
(`stl_compare_function` / `insert_hash_edge`, connect.cpp:186-251) -/

/-- `stl_hash_edge`: the 24-byte canonical key (six 32-bit words), the owning
facet index, and the edge index in 0..5 (≥ 3 when loaded backwards). -/
structure stl_hash_edge where
  key : List Word
  facet_number : Nat
  which_edge : Nat
deriving DecidableEq, Repr

/-- `stl_compare_function` (connect.cpp:246-251): returns true ("not matched")
when the two edges belong to the same facet or their keys differ.  The key
comparison `*edge_a != *edge_b` is declared in `stl.h` (not under `src/`);
per the spec it is bytewise comparison of the 24 key bytes, modelled here as
equality of the six key words. -/
def stl_compare_function (edge_a edge_b : stl_hash_edge) : Bool :=
  edge_a.facet_number = edge_b.facet_number || edge_a.key ≠ edge_b.key

/-- `insert_hash_edge` (connect.cpp:186-244) restricted to one bucket chain:
walk the chain; at the first stored entry that compares equal (different facet,
same key), report the match and delete the stored entry; otherwise append the
new edge at the end of the chain.  The first component is the matched stored
entry, if any; the second is the chain afterwards. -/
def insert_hash_edge : List stl_hash_edge → stl_hash_edge →
    Option stl_hash_edge × List stl_hash_edge
  | [], e => (none, [e])
  | l :: ls, e =>
    if stl_compare_function e l = false then
      (some l, ls)
    else
      let r := insert_hash_edge ls e
      (r.1, l :: r.2)

/-- Unmatched edges compare as matched exactly when keys agree and facets
differ. -/
theorem stl_compare_function_eq_false (a b : stl_hash_edge) :
    stl_compare_function a b = false ↔
      b.key = a.key ∧ b.facet_number ≠ a.facet_number := by
  unfold stl_compare_function
  simp only [Bool.or_eq_false_iff, decide_eq_false_iff_not, not_not]
  constructor
  · intro h
    exact ⟨h.2.symm, fun hf => h.1 hf.symm⟩
  · intro h
    exact ⟨fun hf => h.2 hf.symm, h.1.symm⟩

/-- C7: during hash insertion, a stored edge is matched (and deleted from the
chain, the new edge not inserted) if and only if some stored edge of the chain
has a bytewise-equal key and a different owning facet; the matched entry
itself always has an equal key and a different facet, so two edges of the same
facet never match; and when no entry matches, the new edge is appended to the
chain. -/
theorem insert_hash_edge_match_iff (chain : List stl_hash_edge) (e : stl_hash_edge) :
    ((insert_hash_edge chain e).1.isSome = true ↔
      ∃ m ∈ chain, m.key = e.key ∧ m.facet_number ≠ e.facet_number) ∧
    (∀ m, (insert_hash_edge chain e).1 = some m →
      m ∈ chain ∧ m.key = e.key ∧ m.facet_number ≠ e.facet_number ∧
      (insert_hash_edge chain e).2 =
        chain.eraseP (fun l => !stl_compare_function e l)) ∧
    ((insert_hash_edge chain e).1 = none →
      (insert_hash_edge chain e).2 = chain ++ [e]) := by
  induction chain with
  | nil =>
    refine ⟨?_, ?_, ?_⟩ <;> simp [insert_hash_edge]
  | cons l ls ih =>
    by_cases hc : stl_compare_function e l = false
    · have hkey := (stl_compare_function_eq_false e l).mp hc
      refine ⟨?_, ?_, ?_⟩
      · simp only [insert_hash_edge, if_pos hc, Option.isSome_some, true_iff]
        exact ⟨l, List.mem_cons_self l ls, hkey⟩
      · intro m hm
        simp only [insert_hash_edge, if_pos hc, Option.some.injEq] at hm
        subst hm
        refine ⟨List.mem_cons_self l ls, hkey.1, hkey.2, ?_⟩
        simp [insert_hash_edge, if_pos hc, List.eraseP_cons, hc]
      · intro hnone
        simp [insert_hash_edge, if_pos hc] at hnone
    · have hc' : stl_compare_function e l = true := by
        revert hc
        cases stl_compare_function e l <;> simp
      refine ⟨?_, ?_, ?_⟩
      · simp only [insert_hash_edge, if_neg hc]
        rw [ih.1]
        constructor
        · intro ⟨m, hm, hmk⟩
          exact ⟨m, List.mem_cons_of_mem l hm, hmk⟩
        · intro ⟨m, hm, hmk⟩
          rcases List.mem_cons.mp hm with rfl | hm'
          · exact absurd ((stl_compare_function_eq_false e m).mpr hmk) hc
          · exact ⟨m, hm', hmk⟩
      · intro m hm
        simp only [insert_hash_edge, if_neg hc] at hm ⊢
        obtain ⟨h1, h2, h3, h4⟩ := (ih.2.1) m hm
        refine ⟨List.mem_cons_of_mem l h1, h2, h3, ?_⟩
        rw [List.eraseP_cons]
        simp only [hc', Bool.not_true, cond_false]
        rw [h4]
      · intro hnone
        simp only [insert_hash_edge, if_neg hc] at hnone ⊢
        rw [ih.2.2 hnone, List.cons_append]

/-- Witness for C7: a two-entry chain in which the second stored edge shares
the key with the inserted edge but belongs to another facet. -/
theorem insert_hash_edge_match_iff_witness :
    ((insert_hash_edge
        [⟨[1, 2, 3, 4, 5, 6], 0, 0⟩, ⟨[7, 8, 9, 10, 11, 12], 1, 2⟩]
        ⟨[7, 8, 9, 10, 11, 12], 0, 1⟩).1.isSome = true ↔
      ∃ m ∈ [(⟨[1, 2, 3, 4, 5, 6], 0, 0⟩ : stl_hash_edge), ⟨[7, 8, 9, 10, 11, 12], 1, 2⟩],
        m.key = [7, 8, 9, 10, 11, 12] ∧ m.facet_number ≠ 0) ∧
    (∀ m, (insert_hash_edge
        [⟨[1, 2, 3, 4, 5, 6], 0, 0⟩, ⟨[7, 8, 9, 10, 11, 12], 1, 2⟩]
        ⟨[7, 8, 9, 10, 11, 12], 0, 1⟩).1 = some m →
      m ∈ [(⟨[1, 2, 3, 4, 5, 6], 0, 0⟩ : stl_hash_edge), ⟨[7, 8, 9, 10, 11, 12], 1, 2⟩] ∧
      m.key = [7, 8, 9, 10, 11, 12] ∧ m.facet_number ≠ 0 ∧
      (insert_hash_edge
        [⟨[1, 2, 3, 4, 5, 6], 0, 0⟩, ⟨[7, 8, 9, 10, 11, 12], 1, 2⟩]
        ⟨[7, 8, 9, 10, 11, 12], 0, 1⟩).2 =
        List.eraseP (fun l => !stl_compare_function ⟨[7, 8, 9, 10, 11, 12], 0, 1⟩ l)
          [⟨[1, 2, 3, 4, 5, 6], 0, 0⟩, ⟨[7, 8, 9, 10, 11, 12], 1, 2⟩]) ∧
    ((insert_hash_edge
        [⟨[1, 2, 3, 4, 5, 6], 0, 0⟩, ⟨[7, 8, 9, 10, 11, 12], 1, 2⟩]
        ⟨[7, 8, 9, 10, 11, 12], 0, 1⟩).1 = none →
      (insert_hash_edge
        [⟨[1, 2, 3, 4, 5, 6], 0, 0⟩, ⟨[7, 8, 9, 10, 11, 12], 1, 2⟩]
        ⟨[7, 8, 9, 10, 11, 12], 0, 1⟩).2 =
        [⟨[1, 2, 3, 4, 5, 6], 0, 0⟩, ⟨[7, 8, 9, 10, 11, 12], 1, 2⟩] ++
          [⟨[7, 8, 9, 10, 11, 12], 0, 1⟩]) :=
  insert_hash_edge_match_iff
    [⟨[1, 2, 3, 4, 5, 6], 0, 0⟩, ⟨[7, 8, 9, 10, 11, 12], 1, 2⟩]
    ⟨[7, 8, 9, 10, 11, 12], 0, 1⟩

end Admesh

namespace Admesh

/-! ## C6: degenerate removal (connect.cpp:78-87 and 667-699) -/

/-- A facet is degenerate when any two of its three vertices are equal
(connect.cpp:80 and 679-681). -/
def facet_is_degenerate (f : stl_facet) : Bool :=
  f.v0 = f.v1 || f.v1 = f.v2 || f.v0 = f.v2

/-- The degenerate-removal scan shared by the pre-scan of
`stl_check_facets_exact` (connect.cpp:78-87) and the degenerate sweep of
`stl_remove_unconnected_facets` (connect.cpp:677-685): walk the facet array
with an index that does not advance on removal; a degenerate facet is removed
by moving the last facet of the array into its slot and shrinking the array,
incrementing `facets_removed` and `degenerate_facets`.  `kept` is the already
scanned prefix, `rest` the facets from the scan index to the end of the
array. -/
def remove_degenerate_scan :
    List stl_facet → List stl_facet → Nat → Nat → List stl_facet × Nat × Nat
  | kept, [], removed, degen => (kept, removed, degen)
  | kept, f :: tl, removed, degen =>
    if facet_is_degenerate f then
      match tl with
      | [] => (kept, removed + 1, degen + 1)
      | t :: ts =>
        remove_degenerate_scan kept
          ((t :: ts).getLast (List.cons_ne_nil t ts) :: (t :: ts).dropLast)
          (removed + 1) (degen + 1)
    else
      remove_degenerate_scan (kept ++ [f]) tl removed degen
termination_by _ rest _ _ => rest.length
decreasing_by
  all_goals simp_wf

/-- The degenerate-removal scan never lets a degenerate facet into the kept
prefix. -/
theorem remove_degenerate_scan_preserves (kept rest : List stl_facet)
    (removed degen : Nat) :
    (∀ f ∈ kept, facet_is_degenerate f = false) →
    ∀ f ∈ (remove_degenerate_scan kept rest removed degen).1,
      facet_is_degenerate f = false := by
  induction kept, rest, removed, degen using remove_degenerate_scan.induct with
  | case1 kept removed degen =>
    intro hkept f hf
    simp only [remove_degenerate_scan] at hf
    exact hkept f hf
  | case2 kept g removed degen hdeg =>
    intro hkept f hf
    simp only [remove_degenerate_scan, hdeg, if_true] at hf
    exact hkept f hf
  | case3 kept g removed degen hdeg t ts ih =>
    intro hkept f hf
    simp only [remove_degenerate_scan, hdeg, if_true] at hf
    exact ih hkept f hf
  | case4 kept g tl removed degen hdeg ih =>
    intro hkept f hf
    rw [remove_degenerate_scan.eq_def] at hf
    simp only [Bool.not_eq_true] at hdeg
    simp only [hdeg, if_false, Bool.false_eq_true] at hf
    refine ih ?_ f hf
    intro f' hf'
    rcases List.mem_append.mp hf' with h | h
    · exact hkept f' h
    · rcases List.mem_singleton.mp h with rfl
      exact hdeg

/-- C6: every facet surviving the degenerate-removal pass has three pairwise
distinct vertices; and on the one-facet mesh with vertices
`(0,0,0), (1,0,0), (1,0,0)` the pass leaves zero facets, with
`degenerate_facets` and `facets_removed` each incremented by 1. -/
theorem remove_degenerate_scan_spec :
    (∀ (kept rest : List stl_facet) (removed degen : Nat),
      (∀ f ∈ kept, facet_is_degenerate f = false) →
      ∀ f ∈ (remove_degenerate_scan kept rest removed degen).1,
        facet_is_degenerate f = false) ∧
    remove_degenerate_scan []
      [⟨⟨0, 0, 0⟩, ⟨0, 0, 0⟩, ⟨1, 0, 0⟩, ⟨1, 0, 0⟩, 0⟩] 0 0 = ([], 1, 1) := by
  refine ⟨remove_degenerate_scan_preserves, ?_⟩
  simp [remove_degenerate_scan, facet_is_degenerate, stl_vertex.mk.injEq,
    stl_facet.mk.injEq]

/-- Witness for C6: the universal part applied to a concrete two-facet array
holding one degenerate and one proper facet. -/
theorem remove_degenerate_scan_spec_witness :
    ∀ f ∈ (remove_degenerate_scan []
      [⟨⟨0, 0, 0⟩, ⟨0, 0, 0⟩, ⟨1, 0, 0⟩, ⟨1, 0, 0⟩, 0⟩,
       ⟨⟨0, 0, 0⟩, ⟨0, 0, 0⟩, ⟨1, 0, 0⟩, ⟨0, 1, 0⟩, 0⟩] 0 0).1,
      facet_is_degenerate f = false :=
  remove_degenerate_scan_spec.1 []
    [⟨⟨0, 0, 0⟩, ⟨0, 0, 0⟩, ⟨1, 0, 0⟩, ⟨1, 0, 0⟩, 0⟩,
     ⟨⟨0, 0, 0⟩, ⟨0, 0, 0⟩, ⟨1, 0, 0⟩, ⟨0, 1, 0⟩, 0⟩] 0 0 (by simp)

end Admesh

namespace Admesh

/-! ## The mesh container: neighbor rows, statistics, `stl_file` -/

/-- `stl_neighbors`: one facet's three neighbor slots (`-1` = unconnected) and
the three `which_vertex_not` values (0..5, `≥ 3` marking opposite
orientation). -/
structure stl_neighbors where
  n0 : Int
  n1 : Int
  n2 : Int
  w0 : Nat
  w1 : Nat
  w2 : Nat
deriving DecidableEq, Repr

namespace stl_neighbors

/-- Freshly initialized neighbor row: all three edges unconnected
(connect.cpp:168-170). -/
def init : stl_neighbors := ⟨-1, -1, -1, 0, 0, 0⟩

instance : Inhabited stl_neighbors := ⟨init⟩

/-- `neighbor[j % 3]`. -/
def nbr (r : stl_neighbors) (j : Nat) : Int :=
  match j % 3 with
  | 0 => r.n0
  | 1 => r.n1
  | _ => r.n2

/-- `which_vertex_not[j % 3]`. -/
def wvn (r : stl_neighbors) (j : Nat) : Nat :=
  match j % 3 with
  | 0 => r.w0
  | 1 => r.w1
  | _ => r.w2

/-- Assignment `neighbor[j % 3] = v`. -/
def setNbr (r : stl_neighbors) (j : Nat) (v : Int) : stl_neighbors :=
  match j % 3 with
  | 0 => { r with n0 := v }
  | 1 => { r with n1 := v }
  | _ => { r with n2 := v }

/-- Assignment `which_vertex_not[j % 3] = v`. -/
def setWvn (r : stl_neighbors) (j : Nat) (v : Nat) : stl_neighbors :=
  match j % 3 with
  | 0 => { r with w0 := v }
  | 1 => { r with w1 := v }
  | _ => { r with w2 := v }

/-- The count `(neighbor[0] == -1) + (neighbor[1] == -1) + (neighbor[2] == -1)`
used for the connectivity buckets (connect.cpp:407-412, 625-627, 779-781). -/
def num_unconnected (r : stl_neighbors) : Nat :=
  (if r.n0 = -1 then 1 else 0) + (if r.n1 = -1 then 1 else 0) +
    (if r.n2 = -1 then 1 else 0)

end stl_neighbors

/-- The statistics fields of `stl_stats` that the verified operations read or
write.  Floating-point statistics (bounding box, `shortest_edge`, `volume`) do
not translate to the bit-pattern model and are not touched by the claims. -/
structure stl_stats where
  connected_edges : Int
  connected_facets_1_edge : Int
  connected_facets_2_edge : Int
  connected_facets_3_edge : Int
  degenerate_facets : Int
  edges_fixed : Int
  facets_removed : Int
  facets_added : Int
  facets_malloced : Int
  malloced : Int
  freed : Int
  collisions : Int
deriving DecidableEq, Repr

instance : Inhabited stl_vertex := ⟨⟨0, 0, 0⟩⟩

instance : Inhabited stl_facet := ⟨⟨⟨0, 0, 0⟩, ⟨0, 0, 0⟩, ⟨0, 0, 0⟩, ⟨0, 0, 0⟩, 0⟩⟩

/-- `stl_file`: the facet array, the parallel neighbor array, the statistics
block, and the error flag.  `number_of_facets` is `facets.length`. -/
structure stl_file where
  facets : List stl_facet
  neighbors : List stl_neighbors
  stats : stl_stats
  error : Bool
deriving DecidableEq, Repr

namespace stl_file

/-- `stl->facet_start[i]`. -/
def facet (s : stl_file) (i : Nat) : stl_facet := s.facets.getD i default

/-- `stl->neighbors_start[i]`. -/
def row (s : stl_file) (i : Nat) : stl_neighbors := s.neighbors.getD i stl_neighbors.init

end stl_file

/-- In-place update of one neighbor row of the array. -/
def updRow (rows : List stl_neighbors) (i : Nat)
    (f : stl_neighbors → stl_neighbors) : List stl_neighbors :=
  rows.set i (f (rows.getD i stl_neighbors.init))

/-- The per-facet bucket bump of `stl_record_neighbors` (connect.cpp:413-426):
from the facet's count `u` of still-unconnected edges after the write, count
it into the cumulative bucket it just entered. -/
def record_bump (st : stl_stats) (u : Nat) : stl_stats :=
  if u = 2 then { st with connected_facets_1_edge := st.connected_facets_1_edge + 1 }
  else if u = 1 then { st with connected_facets_2_edge := st.connected_facets_2_edge + 1 }
  else { st with connected_facets_3_edge := st.connected_facets_3_edge + 1 }

/-- `stl_record_neighbors` (connect.cpp:368-427): record the matched pair in
both facets' neighbor rows, set `which_vertex_not` from the partner's edge
number, add 3 to both `which_vertex_not` values when the edges were canonical
in the same direction (opposite facet orientations), then bump
`connected_edges` and the cumulative `connected_facets_{1,2,3}_edge` buckets
from each facet's new unconnected-edge count. -/
def stl_record_neighbors (s : stl_file) (edge_a edge_b : stl_hash_edge) : stl_file :=
  if s.error then s else
  let fa := edge_a.facet_number
  let fb := edge_b.facet_number
  let r1 := updRow s.neighbors fa (fun r => r.setNbr edge_a.which_edge (fb : Int))
  let r2 := updRow r1 fa (fun r => r.setWvn edge_a.which_edge ((edge_b.which_edge + 2) % 3))
  let r3 := updRow r2 fb (fun r => r.setNbr edge_b.which_edge (fa : Int))
  let r4 := updRow r3 fb (fun r => r.setWvn edge_b.which_edge ((edge_a.which_edge + 2) % 3))
  let r5 :=
    if (edge_a.which_edge < 3 ∧ edge_b.which_edge < 3) ∨
        (2 < edge_a.which_edge ∧ 2 < edge_b.which_edge) then
      let r5a := updRow r4 fa (fun r => r.setWvn edge_a.which_edge (r.wvn edge_a.which_edge + 3))
      updRow r5a fb (fun r => r.setWvn edge_b.which_edge (r.wvn edge_b.which_edge + 3))
    else r4
  let i := (r5.getD fa stl_neighbors.init).num_unconnected
  let j := (r5.getD fb stl_neighbors.init).num_unconnected
  let st1 := { s.stats with connected_edges := s.stats.connected_edges + 2 }
  { s with neighbors := r5, stats := record_bump (record_bump st1 i) j }

end Admesh

namespace Admesh

/-! ## Accessor lemmas for neighbor rows -/

theorem nbr_setNbr_self (r : stl_neighbors) (j : Nat) (v : Int) :
    (r.setNbr j v).nbr j = v := by
  have h : j % 3 = 0 ∨ j % 3 = 1 ∨ j % 3 = 2 := by omega
  rcases h with h | h | h <;> simp [stl_neighbors.setNbr, stl_neighbors.nbr, h]

theorem nbr_setNbr_ne (r : stl_neighbors) (j j' : Nat) (v : Int)
    (h : j % 3 ≠ j' % 3) : (r.setNbr j v).nbr j' = r.nbr j' := by
  have hj : j % 3 = 0 ∨ j % 3 = 1 ∨ j % 3 = 2 := by omega
  have hj' : j' % 3 = 0 ∨ j' % 3 = 1 ∨ j' % 3 = 2 := by omega
  rcases hj with h1 | h1 | h1 <;> rcases hj' with h2 | h2 | h2 <;>
    simp_all [stl_neighbors.setNbr, stl_neighbors.nbr]

theorem nbr_setWvn (r : stl_neighbors) (j j' : Nat) (v : Nat) :
    (r.setWvn j v).nbr j' = r.nbr j' := by
  have hj : j % 3 = 0 ∨ j % 3 = 1 ∨ j % 3 = 2 := by omega
  have hj' : j' % 3 = 0 ∨ j' % 3 = 1 ∨ j' % 3 = 2 := by omega
  rcases hj with h1 | h1 | h1 <;> rcases hj' with h2 | h2 | h2 <;>
    simp_all [stl_neighbors.setWvn, stl_neighbors.nbr]

theorem wvn_setWvn_self (r : stl_neighbors) (j : Nat) (v : Nat) :
    (r.setWvn j v).wvn j = v := by
  have h : j % 3 = 0 ∨ j % 3 = 1 ∨ j % 3 = 2 := by omega
  rcases h with h | h | h <;> simp [stl_neighbors.setWvn, stl_neighbors.wvn, h]

theorem wvn_setWvn_ne (r : stl_neighbors) (j j' : Nat) (v : Nat)
    (h : j % 3 ≠ j' % 3) : (r.setWvn j v).wvn j' = r.wvn j' := by
  have hj : j % 3 = 0 ∨ j % 3 = 1 ∨ j % 3 = 2 := by omega
  have hj' : j' % 3 = 0 ∨ j' % 3 = 1 ∨ j' % 3 = 2 := by omega
  rcases hj with h1 | h1 | h1 <;> rcases hj' with h2 | h2 | h2 <;>
    simp_all [stl_neighbors.setWvn, stl_neighbors.wvn]

theorem wvn_setNbr (r : stl_neighbors) (j j' : Nat) (v : Int) :
    (r.setNbr j v).wvn j' = r.wvn j' := by
  have hj : j % 3 = 0 ∨ j % 3 = 1 ∨ j % 3 = 2 := by omega
  have hj' : j' % 3 = 0 ∨ j' % 3 = 1 ∨ j' % 3 = 2 := by omega
  rcases hj with h1 | h1 | h1 <;> rcases hj' with h2 | h2 | h2 <;>
    simp_all [stl_neighbors.setNbr, stl_neighbors.wvn]

theorem getD_updRow_self (rows : List stl_neighbors) (i : Nat)
    (f : stl_neighbors → stl_neighbors) (h : i < rows.length) :
    (updRow rows i f).getD i stl_neighbors.init =
      f (rows.getD i stl_neighbors.init) := by
  simp [updRow, List.getD_eq_getElem?_getD, List.getElem?_set_self', h,
    List.getElem?_eq_getElem]

theorem getD_updRow_ne (rows : List stl_neighbors) (i i' : Nat)
    (f : stl_neighbors → stl_neighbors) (h : i ≠ i') :
    (updRow rows i f).getD i' stl_neighbors.init =
      rows.getD i' stl_neighbors.init := by
  simp [updRow, List.getD_eq_getElem?_getD, List.getElem?_set_ne h]

theorem length_updRow (rows : List stl_neighbors) (i : Nat)
    (f : stl_neighbors → stl_neighbors) :
    (updRow rows i f).length = rows.length := by
  simp [updRow]

end Admesh

namespace Admesh

/-! ## C1: neighbor symmetry and edge correspondence -/

theorem nbr_congr (r : stl_neighbors) (j j' : Nat) (h : j % 3 = j' % 3) :
    r.nbr j = r.nbr j' := by
  unfold stl_neighbors.nbr
  rw [h]

theorem wvn_congr (r : stl_neighbors) (j j' : Nat) (h : j % 3 = j' % 3) :
    r.wvn j = r.wvn j' := by
  unfold stl_neighbors.wvn
  rw [h]

theorem init_nbr (j : Nat) : stl_neighbors.init.nbr j = -1 := by
  have h : j % 3 = 0 ∨ j % 3 = 1 ∨ j % 3 = 2 := by omega
  rcases h with h | h | h <;> simp [stl_neighbors.nbr, stl_neighbors.init, h]

/-- The neighbor rows of `stl_record_neighbors`, at the first facet of the
pair, assuming the two facets differ. -/
theorem record_row_a (s : stl_file) (ea eb : stl_hash_edge) (herr : s.error = false)
    (hab : ea.facet_number ≠ eb.facet_number)
    (hfa : ea.facet_number < s.neighbors.length) :
    (stl_record_neighbors s ea eb).row ea.facet_number =
      (if (ea.which_edge < 3 ∧ eb.which_edge < 3) ∨
          (2 < ea.which_edge ∧ 2 < eb.which_edge) then
        (((s.row ea.facet_number).setNbr ea.which_edge
            (eb.facet_number : Int)).setWvn ea.which_edge
            ((eb.which_edge + 2) % 3)).setWvn ea.which_edge
          ((((s.row ea.facet_number).setNbr ea.which_edge
              (eb.facet_number : Int)).setWvn ea.which_edge
              ((eb.which_edge + 2) % 3)).wvn ea.which_edge + 3)
      else
        ((s.row ea.facet_number).setNbr ea.which_edge
          (eb.facet_number : Int)).setWvn ea.which_edge
          ((eb.which_edge + 2) % 3)) := by
  unfold stl_record_neighbors stl_file.row
  rw [herr]
  simp only [Bool.false_eq_true, if_false]
  by_cases hc : (ea.which_edge < 3 ∧ eb.which_edge < 3) ∨
      (2 < ea.which_edge ∧ 2 < eb.which_edge)
  · simp only [if_pos hc]
    rw [getD_updRow_ne _ _ _ _ (Ne.symm hab),
      getD_updRow_self _ _ _ (by simp only [length_updRow]; exact hfa),
      getD_updRow_ne _ _ _ _ (Ne.symm hab),
      getD_updRow_ne _ _ _ _ (Ne.symm hab),
      getD_updRow_self _ _ _ (by simp only [length_updRow]; exact hfa),
      getD_updRow_self _ _ _ hfa]
  · simp only [if_neg hc]
    rw [getD_updRow_ne _ _ _ _ (Ne.symm hab),
      getD_updRow_ne _ _ _ _ (Ne.symm hab),
      getD_updRow_self _ _ _ (by simp only [length_updRow]; exact hfa),
      getD_updRow_self _ _ _ hfa]

/-- The neighbor rows of `stl_record_neighbors`, at the second facet of the
pair, assuming the two facets differ. -/
theorem record_row_b (s : stl_file) (ea eb : stl_hash_edge) (herr : s.error = false)
    (hab : ea.facet_number ≠ eb.facet_number)
    (hfb : eb.facet_number < s.neighbors.length) :
    (stl_record_neighbors s ea eb).row eb.facet_number =
      (if (ea.which_edge < 3 ∧ eb.which_edge < 3) ∨
          (2 < ea.which_edge ∧ 2 < eb.which_edge) then
        (((s.row eb.facet_number).setNbr eb.which_edge
            (ea.facet_number : Int)).setWvn eb.which_edge
            ((ea.which_edge + 2) % 3)).setWvn eb.which_edge
          ((((s.row eb.facet_number).setNbr eb.which_edge
              (ea.facet_number : Int)).setWvn eb.which_edge
              ((ea.which_edge + 2) % 3)).wvn eb.which_edge + 3)
      else
        ((s.row eb.facet_number).setNbr eb.which_edge
          (ea.facet_number : Int)).setWvn eb.which_edge
          ((ea.which_edge + 2) % 3)) := by
  unfold stl_record_neighbors stl_file.row
  rw [herr]
  simp only [Bool.false_eq_true, if_false]
  by_cases hc : (ea.which_edge < 3 ∧ eb.which_edge < 3) ∨
      (2 < ea.which_edge ∧ 2 < eb.which_edge)
  · simp only [if_pos hc]
    rw [getD_updRow_self _ _ _
        (by simp only [length_updRow]; exact hfb),
      getD_updRow_ne _ _ _ _ hab,
      getD_updRow_self _ _ _ (by simp only [length_updRow]; exact hfb),
      getD_updRow_self _ _ _ (by simp only [length_updRow]; exact hfb),
      getD_updRow_ne _ _ _ _ hab,
      getD_updRow_ne _ _ _ _ hab]
  · simp only [if_neg hc]
    rw [getD_updRow_self _ _ _
        (by simp only [length_updRow]; exact hfb),
      getD_updRow_self _ _ _ (by simp only [length_updRow]; exact hfb),
      getD_updRow_ne _ _ _ _ hab,
      getD_updRow_ne _ _ _ _ hab]

/-- `stl_record_neighbors` leaves every other facet's neighbor row alone. -/
theorem record_row_other (s : stl_file) (ea eb : stl_hash_edge)
    (i : Nat) (hia : i ≠ ea.facet_number) (hib : i ≠ eb.facet_number) :
    (stl_record_neighbors s ea eb).row i = s.row i := by
  unfold stl_record_neighbors stl_file.row
  by_cases herr : s.error
  · rw [if_pos herr]
  · rw [if_neg herr]
    simp only
    by_cases hc : (ea.which_edge < 3 ∧ eb.which_edge < 3) ∨
        (2 < ea.which_edge ∧ 2 < eb.which_edge)
    · simp only [if_pos hc]
      rw [getD_updRow_ne _ _ _ _ (Ne.symm hib),
        getD_updRow_ne _ _ _ _ (Ne.symm hia),
        getD_updRow_ne _ _ _ _ (Ne.symm hib),
        getD_updRow_ne _ _ _ _ (Ne.symm hib),
        getD_updRow_ne _ _ _ _ (Ne.symm hia),
        getD_updRow_ne _ _ _ _ (Ne.symm hia)]
    · simp only [if_neg hc]
      rw [getD_updRow_ne _ _ _ _ (Ne.symm hib),
        getD_updRow_ne _ _ _ _ (Ne.symm hib),
        getD_updRow_ne _ _ _ _ (Ne.symm hia),
        getD_updRow_ne _ _ _ _ (Ne.symm hia)]

end Admesh

namespace Admesh

theorem record_nbr_a (s : stl_file) (ea eb : stl_hash_edge) (herr : s.error = false)
    (hab : ea.facet_number ≠ eb.facet_number)
    (hfa : ea.facet_number < s.neighbors.length) :
    ((stl_record_neighbors s ea eb).row ea.facet_number).nbr ea.which_edge
      = (eb.facet_number : Int) := by
  rw [record_row_a s ea eb herr hab hfa]
  split
  · rw [nbr_setWvn, nbr_setWvn, nbr_setNbr_self]
  · rw [nbr_setWvn, nbr_setNbr_self]

theorem record_wvn_a_mod (s : stl_file) (ea eb : stl_hash_edge) (herr : s.error = false)
    (hab : ea.facet_number ≠ eb.facet_number)
    (hfa : ea.facet_number < s.neighbors.length) :
    ((stl_record_neighbors s ea eb).row ea.facet_number).wvn ea.which_edge % 3
      = (eb.which_edge + 2) % 3 := by
  rw [record_row_a s ea eb herr hab hfa]
  split
  · rw [wvn_setWvn_self, wvn_setWvn_self]
    omega
  · rw [wvn_setWvn_self]
    omega

theorem record_nbr_a_other (s : stl_file) (ea eb : stl_hash_edge) (herr : s.error = false)
    (hab : ea.facet_number ≠ eb.facet_number)
    (hfa : ea.facet_number < s.neighbors.length)
    (j : Nat) (hj : j % 3 ≠ ea.which_edge % 3) :
    ((stl_record_neighbors s ea eb).row ea.facet_number).nbr j
      = (s.row ea.facet_number).nbr j := by
  rw [record_row_a s ea eb herr hab hfa]
  split
  · rw [nbr_setWvn, nbr_setWvn, nbr_setNbr_ne _ _ _ _ (Ne.symm hj)]
  · rw [nbr_setWvn, nbr_setNbr_ne _ _ _ _ (Ne.symm hj)]

theorem record_wvn_a_other (s : stl_file) (ea eb : stl_hash_edge) (herr : s.error = false)
    (hab : ea.facet_number ≠ eb.facet_number)
    (hfa : ea.facet_number < s.neighbors.length)
    (j : Nat) (hj : j % 3 ≠ ea.which_edge % 3) :
    ((stl_record_neighbors s ea eb).row ea.facet_number).wvn j
      = (s.row ea.facet_number).wvn j := by
  rw [record_row_a s ea eb herr hab hfa]
  split
  · rw [wvn_setWvn_ne _ _ _ _ (Ne.symm hj), wvn_setWvn_ne _ _ _ _ (Ne.symm hj),
      wvn_setNbr]
  · rw [wvn_setWvn_ne _ _ _ _ (Ne.symm hj), wvn_setNbr]

theorem record_nbr_b (s : stl_file) (ea eb : stl_hash_edge) (herr : s.error = false)
    (hab : ea.facet_number ≠ eb.facet_number)
    (hfb : eb.facet_number < s.neighbors.length) :
    ((stl_record_neighbors s ea eb).row eb.facet_number).nbr eb.which_edge
      = (ea.facet_number : Int) := by
  rw [record_row_b s ea eb herr hab hfb]
  split
  · rw [nbr_setWvn, nbr_setWvn, nbr_setNbr_self]
  · rw [nbr_setWvn, nbr_setNbr_self]

theorem record_wvn_b_mod (s : stl_file) (ea eb : stl_hash_edge) (herr : s.error = false)
    (hab : ea.facet_number ≠ eb.facet_number)
    (hfb : eb.facet_number < s.neighbors.length) :
    ((stl_record_neighbors s ea eb).row eb.facet_number).wvn eb.which_edge % 3
      = (ea.which_edge + 2) % 3 := by
  rw [record_row_b s ea eb herr hab hfb]
  split
  · rw [wvn_setWvn_self, wvn_setWvn_self]
    omega
  · rw [wvn_setWvn_self]
    omega

theorem record_nbr_b_other (s : stl_file) (ea eb : stl_hash_edge) (herr : s.error = false)
    (hab : ea.facet_number ≠ eb.facet_number)
    (hfb : eb.facet_number < s.neighbors.length)
    (j : Nat) (hj : j % 3 ≠ eb.which_edge % 3) :
    ((stl_record_neighbors s ea eb).row eb.facet_number).nbr j
      = (s.row eb.facet_number).nbr j := by
  rw [record_row_b s ea eb herr hab hfb]
  split
  · rw [nbr_setWvn, nbr_setWvn, nbr_setNbr_ne _ _ _ _ (Ne.symm hj)]
  · rw [nbr_setWvn, nbr_setNbr_ne _ _ _ _ (Ne.symm hj)]

theorem record_wvn_b_other (s : stl_file) (ea eb : stl_hash_edge) (herr : s.error = false)
    (hab : ea.facet_number ≠ eb.facet_number)
    (hfb : eb.facet_number < s.neighbors.length)
    (j : Nat) (hj : j % 3 ≠ eb.which_edge % 3) :
    ((stl_record_neighbors s ea eb).row eb.facet_number).wvn j
      = (s.row eb.facet_number).wvn j := by
  rw [record_row_b s ea eb herr hab hfb]
  split
  · rw [wvn_setWvn_ne _ _ _ _ (Ne.symm hj), wvn_setWvn_ne _ _ _ _ (Ne.symm hj),
      wvn_setNbr]
  · rw [wvn_setWvn_ne _ _ _ _ (Ne.symm hj), wvn_setNbr]

/-- The C1 invariant over a neighbor array: whenever facet `i`'s slot `j`
names neighbor `k`, some slot `j'` of `k` names `i` back, and the two facets'
`which_vertex_not` values are consistent with the slot indices modulo 3. -/
def neighbor_invariant (rows : List stl_neighbors) : Prop :=
  ∀ i k j : Nat, j < 3 →
    (rows.getD i stl_neighbors.init).nbr j = (k : Int) →
    ∃ j' : Nat, j' < 3 ∧
      (rows.getD k stl_neighbors.init).nbr j' = (i : Int) ∧
      ((rows.getD i stl_neighbors.init).wvn j % 3 +
        (rows.getD k stl_neighbors.init).wvn j' % 3 + 2) % 3 = (j + j') % 3

end Admesh

namespace Admesh

/-- C1: `stl_record_neighbors` preserves neighbor symmetry and the
edge-correspondence invariant.  The hypotheses are exactly what holds at every
call site (exact pass, nearby pass, hole filling): the mesh is not in error,
the matched edges belong to two different facets (`stl_compare_function` never
matches edges of one facet), both facets are in range, and the two slots about
to be written are still unconnected. -/
theorem stl_record_neighbors_invariant
    (s : stl_file) (ea eb : stl_hash_edge)
    (herr : s.error = false)
    (hab : ea.facet_number ≠ eb.facet_number)
    (hfa : ea.facet_number < s.neighbors.length)
    (hfb : eb.facet_number < s.neighbors.length)
    (ha : (s.row ea.facet_number).nbr ea.which_edge = -1)
    (hb : (s.row eb.facet_number).nbr eb.which_edge = -1)
    (hinv : neighbor_invariant s.neighbors) :
    neighbor_invariant (stl_record_neighbors s ea eb).neighbors := by
  have hrow : ∀ (t : stl_file) (m : Nat),
      t.neighbors.getD m stl_neighbors.init = t.row m := fun _ _ => rfl
  intro i k j hj hnb
  rw [hrow] at hnb
  by_cases hi_a : i = ea.facet_number ∧ j = ea.which_edge % 3
  · -- the slot just written on facet a: its partner is the slot written on b
    have hk : k = eb.facet_number := by
      have h1 : ((stl_record_neighbors s ea eb).row i).nbr j
          = (eb.facet_number : Int) := by
        rw [hi_a.1, nbr_congr _ j ea.which_edge (by omega)]
        exact record_nbr_a s ea eb herr hab hfa
      rw [hnb] at h1
      exact_mod_cast h1
    subst hk
    refine ⟨eb.which_edge % 3, by omega, ?_, ?_⟩
    · rw [hrow, nbr_congr _ (eb.which_edge % 3) eb.which_edge (by omega), hi_a.1]
      exact record_nbr_b s ea eb herr hab hfb
    · rw [hrow, hrow, hi_a.1, hi_a.2]
      have w1 : ((stl_record_neighbors s ea eb).row ea.facet_number).wvn
          (ea.which_edge % 3) % 3 = (eb.which_edge + 2) % 3 := by
        rw [wvn_congr _ (ea.which_edge % 3) ea.which_edge (by omega)]
        exact record_wvn_a_mod s ea eb herr hab hfa
      have w2 : ((stl_record_neighbors s ea eb).row eb.facet_number).wvn
          (eb.which_edge % 3) % 3 = (ea.which_edge + 2) % 3 := by
        rw [wvn_congr _ (eb.which_edge % 3) eb.which_edge (by omega)]
        exact record_wvn_b_mod s ea eb herr hab hfb
      rw [w1, w2]
      omega
  · by_cases hi_b : i = eb.facet_number ∧ j = eb.which_edge % 3
    · -- the slot just written on facet b: its partner is the slot written on a
      have hk : k = ea.facet_number := by
        have h1 : ((stl_record_neighbors s ea eb).row i).nbr j
            = (ea.facet_number : Int) := by
          rw [hi_b.1, nbr_congr _ j eb.which_edge (by omega)]
          exact record_nbr_b s ea eb herr hab hfb
        rw [hnb] at h1
        exact_mod_cast h1
      subst hk
      refine ⟨ea.which_edge % 3, by omega, ?_, ?_⟩
      · rw [hrow, nbr_congr _ (ea.which_edge % 3) ea.which_edge (by omega), hi_b.1]
        exact record_nbr_a s ea eb herr hab hfa
      · rw [hrow, hrow, hi_b.1, hi_b.2]
        have w1 : ((stl_record_neighbors s ea eb).row eb.facet_number).wvn
            (eb.which_edge % 3) % 3 = (ea.which_edge + 2) % 3 := by
          rw [wvn_congr _ (eb.which_edge % 3) eb.which_edge (by omega)]
          exact record_wvn_b_mod s ea eb herr hab hfb
        have w2 : ((stl_record_neighbors s ea eb).row ea.facet_number).wvn
            (ea.which_edge % 3) % 3 = (eb.which_edge + 2) % 3 := by
          rw [wvn_congr _ (ea.which_edge % 3) ea.which_edge (by omega)]
          exact record_wvn_a_mod s ea eb herr hab hfa
        rw [w1, w2]
        omega
    · -- an untouched slot: fall back on the invariant before the call
      have hold_n : ((stl_record_neighbors s ea eb).row i).nbr j
          = (s.row i).nbr j := by
        by_cases hia : i = ea.facet_number
        · rw [hia]
          exact record_nbr_a_other s ea eb herr hab hfa j
            (by simp only [not_and] at hi_a; have := hi_a hia; omega)
        · by_cases hib : i = eb.facet_number
          · rw [hib]
            exact record_nbr_b_other s ea eb herr hab hfb j
              (by simp only [not_and] at hi_b; have := hi_b hib; omega)
          · rw [record_row_other s ea eb i hia hib]
      have hold_w : ((stl_record_neighbors s ea eb).row i).wvn j
          = (s.row i).wvn j := by
        by_cases hia : i = ea.facet_number
        · rw [hia]
          exact record_wvn_a_other s ea eb herr hab hfa j
            (by simp only [not_and] at hi_a; have := hi_a hia; omega)
        · by_cases hib : i = eb.facet_number
          · rw [hib]
            exact record_wvn_b_other s ea eb herr hab hfb j
              (by simp only [not_and] at hi_b; have := hi_b hib; omega)
          · rw [record_row_other s ea eb i hia hib]
      rw [hold_n] at hnb
      obtain ⟨j', hj', hk, hw⟩ := hinv i k j hj hnb
      -- the witness slot cannot be one of the two written slots, because it
      -- held a facet index while the written slots held -1
      have hk_a : ¬(k = ea.facet_number ∧ j' % 3 = ea.which_edge % 3) := by
        rintro ⟨hkfa, hje⟩
        rw [hrow, hkfa, nbr_congr _ j' ea.which_edge hje, ha] at hk
        omega
      have hk_b : ¬(k = eb.facet_number ∧ j' % 3 = eb.which_edge % 3) := by
        rintro ⟨hkfb, hje⟩
        rw [hrow, hkfb, nbr_congr _ j' eb.which_edge hje, hb] at hk
        omega
      have hnew_n : ((stl_record_neighbors s ea eb).row k).nbr j'
          = (s.row k).nbr j' := by
        by_cases hka : k = ea.facet_number
        · rw [hka]
          exact record_nbr_a_other s ea eb herr hab hfa j'
            (fun h => hk_a ⟨hka, h⟩)
        · by_cases hkb : k = eb.facet_number
          · rw [hkb]
            exact record_nbr_b_other s ea eb herr hab hfb j'
              (fun h => hk_b ⟨hkb, h⟩)
          · rw [record_row_other s ea eb k hka hkb]
      have hnew_w : ((stl_record_neighbors s ea eb).row k).wvn j'
          = (s.row k).wvn j' := by
        by_cases hka : k = ea.facet_number
        · rw [hka]
          exact record_wvn_a_other s ea eb herr hab hfa j'
            (fun h => hk_a ⟨hka, h⟩)
        · by_cases hkb : k = eb.facet_number
          · rw [hkb]
            exact record_wvn_b_other s ea eb herr hab hfb j'
              (fun h => hk_b ⟨hkb, h⟩)
          · rw [record_row_other s ea eb k hka hkb]
      refine ⟨j', hj', ?_, ?_⟩
      · rw [hrow, hnew_n]
        exact hk
      · rw [hrow, hrow, hold_w, hnew_w]
        exact hw

/-- Witness for C1: recording a match between facet 0 (edge 0) and facet 1
(edge 4) on a fresh two-facet mesh. -/
theorem stl_record_neighbors_invariant_witness :
    neighbor_invariant (stl_record_neighbors
      ⟨[default, default], [stl_neighbors.init, stl_neighbors.init],
        ⟨0, 0, 0, 0, 0, 0, 0, 0, 0, 0, 0, 0⟩, false⟩
      ⟨[1, 2, 3, 4, 5, 6], 0, 0⟩ ⟨[1, 2, 3, 4, 5, 6], 1, 4⟩).neighbors := by
  apply stl_record_neighbors_invariant
  · rfl
  · decide
  · decide
  · decide
  · decide
  · decide
  · intro i k j hj hnb
    exfalso
    have hik : (([stl_neighbors.init, stl_neighbors.init].getD i
        stl_neighbors.init)).nbr j = -1 := by
      rcases i with _ | _ | i <;> simp [List.getD, init_nbr]
    rw [hik] at hnb
    omega

end Admesh

namespace Admesh

/-! ## C3: vertex-snap target selection
(`stl_which_vertices_to_change`, connect.cpp:547-612) -/

/-- The first endpoint of a hash edge on its owning facet: the stored edge
index when the edge was loaded forwards (`which_edge < 3`), else
`(which_edge + 1) % 3` (connect.cpp:557-571, `v1a` / `v1b`). -/
def edge_first_vertex (e : stl_hash_edge) : Nat :=
  if e.which_edge < 3 then e.which_edge else (e.which_edge + 1) % 3

/-- The second endpoint of a hash edge on its owning facet
(connect.cpp:557-571, `v2a` / `v2b`). -/
def edge_second_vertex (e : stl_hash_edge) : Nat :=
  if e.which_edge < 3 then (e.which_edge + 1) % 3 else e.which_edge % 3

/-- The "free corner" test of connect.cpp:579-581 and 599-601: both edges of
facet `f` adjacent to vertex `v` (edges `v` and `(v+2) % 3`) are
unconnected. -/
def free_corner (s : stl_file) (f : Nat) (v : Nat) : Bool :=
  (s.row f).nbr v = -1 && (s.row f).nbr ((v + 2) % 3) = -1

/-- `stl_which_vertices_to_change` (connect.cpp:547-612): for each of the two
endpoint pairs of a matched nearby edge pair, decide which facet's vertex to
move and where.  `none` models the C `facet = -1` "nothing to change" output;
`some (f, v, w)` says vertex `v` of facet `f` is to be moved to position
`w`. -/
def stl_which_vertices_to_change (s : stl_file) (edge_a edge_b : stl_hash_edge) :
    Option (Nat × Nat × stl_vertex) × Option (Nat × Nat × stl_vertex) :=
  let v1a := edge_first_vertex edge_a
  let v1b := edge_first_vertex edge_b
  let v2a := edge_second_vertex edge_a
  let v2b := edge_second_vertex edge_b
  let p1 :=
    if (s.facet edge_a.facet_number).vertex v1a
        = (s.facet edge_b.facet_number).vertex v1b then
      none
    else if free_corner s edge_a.facet_number v1a then
      some (edge_a.facet_number, v1a, (s.facet edge_b.facet_number).vertex v1b)
    else
      some (edge_b.facet_number, v1b, (s.facet edge_a.facet_number).vertex v1a)
  let p2 :=
    if (s.facet edge_a.facet_number).vertex v2a
        = (s.facet edge_b.facet_number).vertex v2b then
      none
    else if free_corner s edge_a.facet_number v2a then
      some (edge_a.facet_number, v2a, (s.facet edge_b.facet_number).vertex v2b)
    else
      some (edge_b.facet_number, v2b, (s.facet edge_a.facet_number).vertex v2a)
  (p1, p2)

/-- A concrete mesh on which neither side of the first endpoint pair is a free
corner: facet 0 and facet 1 each have a connected edge at their first
endpoint. -/
def c3_mesh : stl_file :=
  ⟨[⟨⟨0, 0, 0⟩, ⟨0, 0, 0⟩, ⟨1, 0, 0⟩, ⟨0, 1, 0⟩, 0⟩,
    ⟨⟨0, 0, 0⟩, ⟨5, 0, 0⟩, ⟨0, 0, 1⟩, ⟨1, 1, 0⟩, 0⟩],
   [⟨2, -1, -1, 0, 0, 0⟩, ⟨3, -1, -1, 0, 0, 0⟩],
   ⟨0, 0, 0, 0, 0, 0, 0, 0, 0, 0, 0, 0⟩, false⟩

/-- C3, counterexample: on `c3_mesh` with the matched pair
`edge_a = (facet 0, edge 0)`, `edge_b = (facet 1, edge 0)`, the first endpoint
vertices differ and neither side is a free corner, yet the code moves the
vertex of the SECOND facet (edge_b's facet 1) onto the first facet's position,
not the first facet's vertex onto the second's as the claim states. -/
theorem stl_which_vertices_to_change_counterexample :
    (c3_mesh.facet 0).vertex (edge_first_vertex ⟨[0], 0, 0⟩)
      ≠ (c3_mesh.facet 1).vertex (edge_first_vertex ⟨[0], 1, 0⟩) ∧
    free_corner c3_mesh 0 (edge_first_vertex ⟨[0], 0, 0⟩) = false ∧
    free_corner c3_mesh 1 (edge_first_vertex ⟨[0], 1, 0⟩) = false ∧
    (stl_which_vertices_to_change c3_mesh ⟨[0], 0, 0⟩ ⟨[0], 1, 0⟩).1
      = some (1, 0, ⟨0, 0, 0⟩) ∧
    (stl_which_vertices_to_change c3_mesh ⟨[0], 0, 0⟩ ⟨[0], 1, 0⟩).1
      ≠ some (0, edge_first_vertex ⟨[0], 0, 0⟩,
          (c3_mesh.facet 1).vertex (edge_first_vertex ⟨[0], 1, 0⟩)) := by
  refine ⟨by decide, by decide, by decide, by decide, by decide⟩

/-- C3 as amended: for each endpoint pair, if the two candidate vertices are
bytewise equal nothing is changed for that endpoint; otherwise, if the first
facet's endpoint is a free corner (both adjacent edges unconnected), that
vertex is moved onto the second facet's position; and otherwise — whether or
not the second facet's endpoint is a free corner — the vertex of the SECOND
facet is moved onto the corresponding vertex of the first facet. -/
theorem stl_which_vertices_to_change_spec (s : stl_file) (edge_a edge_b : stl_hash_edge) :
    ((s.facet edge_a.facet_number).vertex (edge_first_vertex edge_a)
        = (s.facet edge_b.facet_number).vertex (edge_first_vertex edge_b) →
      (stl_which_vertices_to_change s edge_a edge_b).1 = none) ∧
    ((s.facet edge_a.facet_number).vertex (edge_first_vertex edge_a)
        ≠ (s.facet edge_b.facet_number).vertex (edge_first_vertex edge_b) →
      free_corner s edge_a.facet_number (edge_first_vertex edge_a) = true →
      (stl_which_vertices_to_change s edge_a edge_b).1 =
        some (edge_a.facet_number, edge_first_vertex edge_a,
          (s.facet edge_b.facet_number).vertex (edge_first_vertex edge_b))) ∧
    ((s.facet edge_a.facet_number).vertex (edge_first_vertex edge_a)
        ≠ (s.facet edge_b.facet_number).vertex (edge_first_vertex edge_b) →
      free_corner s edge_a.facet_number (edge_first_vertex edge_a) = false →
      (stl_which_vertices_to_change s edge_a edge_b).1 =
        some (edge_b.facet_number, edge_first_vertex edge_b,
          (s.facet edge_a.facet_number).vertex (edge_first_vertex edge_a))) ∧
    ((s.facet edge_a.facet_number).vertex (edge_second_vertex edge_a)
        = (s.facet edge_b.facet_number).vertex (edge_second_vertex edge_b) →
      (stl_which_vertices_to_change s edge_a edge_b).2 = none) ∧
    ((s.facet edge_a.facet_number).vertex (edge_second_vertex edge_a)
        ≠ (s.facet edge_b.facet_number).vertex (edge_second_vertex edge_b) →
      free_corner s edge_a.facet_number (edge_second_vertex edge_a) = true →
      (stl_which_vertices_to_change s edge_a edge_b).2 =
        some (edge_a.facet_number, edge_second_vertex edge_a,
          (s.facet edge_b.facet_number).vertex (edge_second_vertex edge_b))) ∧
    ((s.facet edge_a.facet_number).vertex (edge_second_vertex edge_a)
        ≠ (s.facet edge_b.facet_number).vertex (edge_second_vertex edge_b) →
      free_corner s edge_a.facet_number (edge_second_vertex edge_a) = false →
      (stl_which_vertices_to_change s edge_a edge_b).2 =
        some (edge_b.facet_number, edge_second_vertex edge_b,
          (s.facet edge_a.facet_number).vertex (edge_second_vertex edge_a))) := by
  refine ⟨?_, ?_, ?_, ?_, ?_, ?_⟩
  · intro heq
    simp [stl_which_vertices_to_change, heq]
  · intro hne hfree
    simp [stl_which_vertices_to_change, hne, hfree]
  · intro hne hfree
    simp [stl_which_vertices_to_change, hne, hfree]
  · intro heq
    simp [stl_which_vertices_to_change, heq]
  · intro hne hfree
    simp [stl_which_vertices_to_change, hne, hfree]
  · intro hne hfree
    simp [stl_which_vertices_to_change, hne, hfree]

/-- Witness for C3's amended theorem on `c3_mesh`: neither-free-corner case of
the first endpoint pair. -/
theorem stl_which_vertices_to_change_spec_witness :
    (stl_which_vertices_to_change c3_mesh ⟨[0], 0, 0⟩ ⟨[0], 1, 0⟩).1
      = some (1, edge_first_vertex ⟨[0], 1, 0⟩,
          (c3_mesh.facet 0).vertex (edge_first_vertex ⟨[0], 0, 0⟩)) :=
  (stl_which_vertices_to_change_spec c3_mesh ⟨[0], 0, 0⟩ ⟨[0], 1, 0⟩).2.2.1
    (by decide) (by decide)

end Admesh

namespace Admesh

/-! ## C4: binary round trip (`stl_write_binary`, stl_io.cpp:200-243) -/

/-- 4-byte little-endian encoding of a 32-bit value. -/
def le32_encode (n : Nat) : List Nat :=
  [n % 256, n / 256 % 256, n / 65536 % 256, n / 16777216 % 256]

/-- Little-endian decoding of (the first) 4 bytes. -/
def le32_decode (bs : List Nat) : Nat :=
  bs.getD 0 0 + 256 * bs.getD 1 0 + 65536 * bs.getD 2 0 + 16777216 * bs.getD 3 0

/-- Read exactly `n` 50-byte facet records, requiring the stream to end right
after the last one. -/
def read_facet_records : Nat → List Nat → Option (List (List Nat))
  | 0, rest => if rest = [] then some [] else none
  | n + 1, rest =>
    if 50 ≤ rest.length then
      match read_facet_records n (rest.drop 50) with
      | some rs => some (rest.take 50 :: rs)
      | none => none
    else none

/-- Modelled from the spec: the binary reader (`stl_initialize` /
`stl_read_binary` live in `stlinit.cpp`, which is not under `src/`).  Per spec
§4.1/§6: bytes 0..79 are the header, stored verbatim; bytes 80..83 the
little-endian facet count `N`; a well-formed file then holds exactly `N`
50-byte facet records (`file_size = 84 + 50·N`); facet payloads are kept in
the little-endian byte layout they have on disk.  Returns
`(header, count, records)` or `none` on a malformed file. -/
def stl_read_binary (file : List Nat) : Option (List Nat × Nat × List (List Nat)) :=
  if 84 ≤ file.length then
    match read_facet_records (le32_decode ((file.drop 80).take 4)) (file.drop 84) with
    | some recs => some (file.take 80, le32_decode ((file.drop 80).take 4), recs)
    | none => none
  else none

/-- `stl_write_binary` (stl_io.cpp:200-243), little-endian host branch, at
byte level: `fprintf(fp, "%s", label)` writes the label's bytes up to its
first NUL (C-string semantics), the loop pads with NUL bytes up to
`LABEL_SIZE = 80` (and any label bytes past 80 are overwritten after the
`fseek`), then the facet count as 4 little-endian bytes, then each facet's
50 bytes verbatim (`fwrite(stl->facet_start + i, 50, 1)`). -/
def stl_write_binary_bytes (label : List Nat) (count : Nat)
    (records : List (List Nat)) : List Nat :=
  (label.takeWhile (fun b => b ≠ 0) ++ List.replicate 80 0).take 80 ++
    le32_encode count ++ records.flatten

/-- The C string a caller can pass to reproduce a header: its bytes up to the
first NUL. -/
def header_as_label (header : List Nat) : List Nat :=
  header.takeWhile (fun b => b ≠ 0)

/-- An 84-byte well-formed binary file (facet count 0) whose header has a
nonzero byte after a zero byte: `'A', 0, 'B'`, then zeros. -/
def c4_bad_file : List Nat :=
  65 :: 0 :: 66 :: List.replicate 81 0

/-- C4, counterexample: `c4_bad_file` is well formed and reads successfully,
but writing the mesh back with the binary writer — passing the whole stored
header as the label — cannot reproduce it: the writer emits the label as a
NUL-terminated string padded with zeros, so the byte `'B'` after the first
NUL is lost. -/
theorem stl_write_binary_roundtrip_counterexample :
    c4_bad_file.length = 84 + 50 * 0 ∧
    stl_read_binary c4_bad_file
      = some (c4_bad_file.take 80, 0, []) ∧
    stl_write_binary_bytes (c4_bad_file.take 80) 0 [] ≠ c4_bad_file := by
  refine ⟨by decide, ?_, by decide⟩
  decide

theorem takeWhile_takeWhile_self (l : List Nat) (p : Nat → Bool) :
    (l.takeWhile p).takeWhile p = l.takeWhile p := by
  induction l with
  | nil => simp
  | cons a t ih =>
    rw [List.takeWhile_cons]
    split
    · rename_i hpa
      rw [List.takeWhile_cons, if_pos hpa, ih]
    · simp

theorem takeWhile_length_le (l : List Nat) (p : Nat → Bool) :
    (l.takeWhile p).length ≤ l.length := by
  induction l with
  | nil => simp
  | cons a t ih =>
    rw [List.takeWhile_cons]
    split
    · simpa using ih
    · simp

theorem le32_round (bs : List Nat) (hlen : bs.length = 4)
    (hbytes : ∀ b ∈ bs, b < 256) : le32_encode (le32_decode bs) = bs := by
  match bs, hlen with
  | [b0, b1, b2, b3], _ =>
    have h0 : b0 < 256 := hbytes b0 (by simp)
    have h1 : b1 < 256 := hbytes b1 (by simp)
    have h2 : b2 < 256 := hbytes b2 (by simp)
    have h3 : b3 < 256 := hbytes b3 (by simp)
    have hdec : le32_decode [b0, b1, b2, b3]
        = b0 + 256 * b1 + 65536 * b2 + 16777216 * b3 := rfl
    rw [hdec]
    simp only [le32_encode, List.cons.injEq, and_true]
    refine ⟨by omega, by omega, by omega, by omega⟩

theorem read_facet_records_join (n : Nat) (rest : List Nat)
    (rs : List (List Nat)) (h : read_facet_records n rest = some rs) :
    rs.flatten = rest := by
  induction n generalizing rest rs with
  | zero =>
    unfold read_facet_records at h
    split at h
    · cases h
      simp_all
    · cases h
  | succ n ih =>
    unfold read_facet_records at h
    split at h
    · rcases hrec : read_facet_records n (rest.drop 50) with _ | rs'
      · rw [hrec] at h
        cases h
      · rw [hrec] at h
        cases h
        rw [List.flatten_cons, ih _ _ hrec, List.take_append_drop]
    · cases h

/-- C4 as amended: reading a well-formed binary file and writing it back with
the binary writer reproduces the 4-byte facet count and every 50-byte facet
record byte for byte, and reproduces the 80-byte header exactly when the
header consists of its NUL-terminated prefix padded with zero bytes (no
nonzero byte after a zero byte) and that prefix is passed as the label; a
header with a nonzero byte after a zero byte cannot be reproduced by the
writer's `%s`-plus-padding scheme. -/
theorem stl_write_binary_roundtrip (file header : List Nat) (count : Nat)
    (records : List (List Nat))
    (hbytes : ∀ b ∈ file, b < 256)
    (hread : stl_read_binary file = some (header, count, records))
    (hheader : header = header_as_label header ++
      List.replicate (80 - (header_as_label header).length) 0) :
    stl_write_binary_bytes (header_as_label header) count records = file := by
  unfold stl_read_binary at hread
  split at hread
  case isFalse => cases hread
  case isTrue hlen =>
    rcases hrec : read_facet_records (le32_decode ((file.drop 80).take 4))
        (file.drop 84) with _ | rs'
    · rw [hrec] at hread
      cases hread
    · rw [hrec] at hread
      cases hread
      -- header = file.take 80, count = decoded, records = rs'
      have hlab_le : (header_as_label (file.take 80)).length ≤ 80 := by
        have h1 : (header_as_label (file.take 80)).length ≤ (file.take 80).length :=
          takeWhile_length_le (file.take 80) _
        have h2 : (file.take 80).length = 80 := by
          rw [List.length_take]
          omega
        omega
      unfold stl_write_binary_bytes
      have hidem : (header_as_label (file.take 80)).takeWhile (fun b => b ≠ 0)
          = header_as_label (file.take 80) := by
        unfold header_as_label
        exact takeWhile_takeWhile_self _ _
      rw [hidem]
      have hpad : (header_as_label (file.take 80) ++ List.replicate 80 0).take 80
          = header_as_label (file.take 80) ++
            List.replicate (80 - (header_as_label (file.take 80)).length) 0 := by
        rw [List.take_append_eq_append_take,
          List.take_of_length_le hlab_le, List.take_replicate]
        congr 1
        congr 1
        omega
      rw [hpad, ← hheader]
      have hcnt : le32_encode (le32_decode ((file.drop 80).take 4))
          = (file.drop 80).take 4 := by
        apply le32_round
        · rw [List.length_take, List.length_drop]
          omega
        · intro b hb
          exact hbytes b (List.mem_of_mem_drop (List.mem_of_mem_take hb))
      rw [hcnt, read_facet_records_join _ _ _ hrec]
      rw [show file.drop 84 = ((file.drop 80).drop 4) by rw [List.drop_drop]]
      rw [List.append_assoc, List.take_append_drop, List.take_append_drop]

set_option maxRecDepth 4096 in
/-- Witness for C4's amended theorem: a well-formed one-facet file with the
header `'A'` followed by zeros round-trips byte for byte. -/
theorem stl_write_binary_roundtrip_witness :
    stl_write_binary_bytes
      (header_as_label ((65 :: List.replicate 79 0 ++ [1, 0, 0, 0] ++
          List.replicate 50 7).take 80))
      1 [List.replicate 50 7]
      = 65 :: List.replicate 79 0 ++ [1, 0, 0, 0] ++ List.replicate 50 7 := by
  have h := stl_write_binary_roundtrip
    (65 :: List.replicate 79 0 ++ [1, 0, 0, 0] ++ List.replicate 50 7)
    ((65 :: List.replicate 79 0 ++ [1, 0, 0, 0] ++ List.replicate 50 7).take 80)
    1 [List.replicate 50 7] (by decide) (by decide) (by decide)
  exact h

end Admesh

namespace Admesh

/-! ## C2: termination of the vertex-snap fan walk
(`stl_change_vertices`, connect.cpp:471-545) -/

/-- The control state of the loop of `stl_change_vertices`: the current facet
(`-1` after hopping over an open edge), the incoming `vnot`, and the walk
direction.  The vertex overwrite performed at each visited facet does not
feed back into the control flow, so the embedding tracks control only. -/
structure fan_state where
  facet : Int
  vnot : Nat
  direction : Nat
deriving DecidableEq, Repr

/-- `next_edge` and the new `direction` computed at the top of the loop body
(connect.cpp:483-501). -/
def fan_next_edge (vnot direction : Nat) : Nat × Nat :=
  if 2 < vnot then
    if direction = 0 then ((vnot + 2) % 3, 1)
    else (vnot % 3, 0)
  else
    if direction = 0 then (vnot, 0)
    else ((vnot + 2) % 3, 1)

/-- One iteration of the loop (connect.cpp:482-531): compute `next_edge`, then
`vnot = which_vertex_not[next_edge]`, `facet_num = neighbor[next_edge]`. -/
def fan_step (rows : List stl_neighbors) (s : fan_state) : fan_state :=
  let e := (fan_next_edge s.vnot s.direction).1
  let d := (fan_next_edge s.vnot s.direction).2
  let r := rows.getD s.facet.toNat stl_neighbors.init
  ⟨r.nbr e, r.wvn e, d⟩

/-- The control state after `n` iterations. -/
def fan_orbit (rows : List stl_neighbors) (s0 : fan_state) (n : Nat) : fan_state :=
  (fan_step rows)^[n] s0

/-- The loop stops exactly when, after some hop, the facet is `-1` (open
edge, connect.cpp:533-535) or the starting facet again (Möbius diagnostic,
connect.cpp:537-543). -/
def fan_terminates (rows : List stl_neighbors) (first : Nat) (s0 : fan_state) : Prop :=
  ∃ n : Nat, (fan_orbit rows s0 (n + 1)).facet = -1 ∨
    (fan_orbit rows s0 (n + 1)).facet = (first : Int)

/-- The adjacency invariants named by the claim, as a decidable check on one
row: every neighbor slot is `-1` or a facet index below `N`, and every
`which_vertex_not` is in 0..5. -/
def row_in_range (N : Nat) (r : stl_neighbors) : Bool :=
  (r.n0 = -1 || (0 ≤ r.n0 && r.n0 < (N : Int))) &&
  (r.n1 = -1 || (0 ≤ r.n1 && r.n1 < (N : Int))) &&
  (r.n2 = -1 || (0 ≤ r.n2 && r.n2 < (N : Int))) &&
  (r.w0 < 6 && r.w1 < 6 && r.w2 < 6)

/-- The claim's invariant for a whole neighbor table. -/
def fan_table_ok (rows : List stl_neighbors) : Bool :=
  rows.all (row_in_range rows.length)

theorem row_in_range_spec (N : Nat) (r : stl_neighbors)
    (h : row_in_range N r = true) (j : Nat) :
    (r.nbr j = -1 ∨ (0 ≤ r.nbr j ∧ r.nbr j < (N : Int))) ∧ r.wvn j < 6 := by
  simp only [row_in_range, Bool.and_eq_true, Bool.or_eq_true,
    decide_eq_true_eq] at h
  have hj : j % 3 = 0 ∨ j % 3 = 1 ∨ j % 3 = 2 := by omega
  rcases hj with hj | hj | hj <;>
    simp only [stl_neighbors.nbr, stl_neighbors.wvn, hj] <;>
    tauto

/-- The three-facet neighbor table on which the fan walk never stops: facet 0
leads to facet 1, and facets 1 and 2 point at each other, never back at
facet 0 and never at an open edge. -/
def c2_rows : List stl_neighbors :=
  [⟨1, -1, -1, 0, 0, 0⟩, ⟨2, -1, -1, 0, 0, 0⟩, ⟨1, -1, -1, 0, 0, 0⟩]

theorem c2_orbit (n : Nat) :
    fan_orbit c2_rows ⟨0, 0, 0⟩ (n + 1)
      = if n % 2 = 0 then ⟨1, 0, 0⟩ else ⟨2, 0, 0⟩ := by
  induction n with
  | zero => rfl
  | succ n ih =>
    rw [fan_orbit, Function.iterate_succ_apply']
    rw [fan_orbit] at ih
    rw [ih]
    rcases Nat.even_or_odd n with he | ho
    · have h0 : n % 2 = 0 := Nat.even_iff.mp he
      have h1 : (n + 1) % 2 = 1 := by omega
      rw [if_pos h0, if_neg (by omega)]
      rfl
    · have h0 : n % 2 = 1 := Nat.odd_iff.mp ho
      rw [if_neg (by omega), if_pos (by omega)]
      rfl

/-- C2, counterexample: `c2_rows` satisfies the claim's adjacency invariants
(neighbor indices in range, `which_vertex_not` in 0..5), yet the fan walk of
`stl_change_vertices` started at facet 0 with `vnot = 0` never reaches an
open edge nor the starting facet: it alternates between facets 1 and 2
forever. -/
theorem stl_change_vertices_nonterminating :
    fan_table_ok c2_rows = true ∧
    ¬ fan_terminates c2_rows 0 ⟨0, 0, 0⟩ := by
  refine ⟨by decide, ?_⟩
  rintro ⟨n, hn | hn⟩ <;> rw [c2_orbit n] at hn <;>
    · split at hn <;> simp_all

end Admesh

namespace Admesh

theorem fan_direction_lt (v d : Nat) : (fan_next_edge v d).2 < 2 := by
  unfold fan_next_edge
  split <;> split <;> norm_num

theorem fan_orbit_succ (rows : List stl_neighbors) (s0 : fan_state) (n : Nat) :
    fan_orbit rows s0 (n + 1) = fan_step rows (fan_orbit rows s0 n) := by
  rw [fan_orbit, fan_orbit, Function.iterate_succ_apply']

/-- Along a never-stopping walk on a table satisfying the invariants, every
control state stays inside the finite box `facet < N`, `vnot < 6`,
`direction < 2`. -/
theorem fan_orbit_bounds (rows : List stl_neighbors) (hok : fan_table_ok rows = true)
    (first vnot0 : Nat) (hf : first < rows.length) (hv : vnot0 < 6)
    (hnt : ∀ n : Nat, (fan_orbit rows ⟨(first : Int), vnot0, 0⟩ (n + 1)).facet ≠ -1)
    (n : Nat) :
    0 ≤ (fan_orbit rows ⟨(first : Int), vnot0, 0⟩ n).facet ∧
    (fan_orbit rows ⟨(first : Int), vnot0, 0⟩ n).facet < (rows.length : Int) ∧
    (fan_orbit rows ⟨(first : Int), vnot0, 0⟩ n).vnot < 6 ∧
    (fan_orbit rows ⟨(first : Int), vnot0, 0⟩ n).direction < 2 := by
  have hok' : ∀ i : Nat, i < rows.length →
      row_in_range rows.length (rows.getD i stl_neighbors.init) = true := by
    intro i hi
    have hmem : rows.getD i stl_neighbors.init ∈ rows := by
      rw [List.getD_eq_getElem _ _ hi]
      exact List.getElem_mem _
    exact List.all_eq_true.mp hok _ hmem
  induction n with
  | zero =>
    refine ⟨by simp [fan_orbit], by simp [fan_orbit]; exact_mod_cast hf,
      by simp [fan_orbit]; exact hv, by simp [fan_orbit]⟩
  | succ n ih =>
    obtain ⟨h0, h1, h2, h3⟩ := ih
    have hidx : (fan_orbit rows ⟨(first : Int), vnot0, 0⟩ n).facet.toNat
        < rows.length := by omega
    have hr := hok' _ hidx
    have hspec := row_in_range_spec _ _ hr
      (fan_next_edge (fan_orbit rows ⟨(first : Int), vnot0, 0⟩ n).vnot
        (fan_orbit rows ⟨(first : Int), vnot0, 0⟩ n).direction).1
    rw [fan_orbit_succ]
    have hstep : fan_step rows (fan_orbit rows ⟨(first : Int), vnot0, 0⟩ n)
        = ⟨(rows.getD (fan_orbit rows ⟨(first : Int), vnot0, 0⟩ n).facet.toNat
              stl_neighbors.init).nbr
            (fan_next_edge (fan_orbit rows ⟨(first : Int), vnot0, 0⟩ n).vnot
              (fan_orbit rows ⟨(first : Int), vnot0, 0⟩ n).direction).1,
           (rows.getD (fan_orbit rows ⟨(first : Int), vnot0, 0⟩ n).facet.toNat
              stl_neighbors.init).wvn
            (fan_next_edge (fan_orbit rows ⟨(first : Int), vnot0, 0⟩ n).vnot
              (fan_orbit rows ⟨(first : Int), vnot0, 0⟩ n).direction).1,
           (fan_next_edge (fan_orbit rows ⟨(first : Int), vnot0, 0⟩ n).vnot
              (fan_orbit rows ⟨(first : Int), vnot0, 0⟩ n).direction).2⟩ := rfl
    rw [hstep]
    refine ⟨?_, ?_, hspec.2, fan_direction_lt _ _⟩
    · have hne := hnt n
      rw [fan_orbit_succ, hstep] at hne
      rcases hspec.1 with hm | hm
      · exact absurd hm hne
      · exact hm.1
    · have hne := hnt n
      rw [fan_orbit_succ, hstep] at hne
      rcases hspec.1 with hm | hm
      · exact absurd hm hne
      · exact hm.2

/-- C2 as amended: on a mesh whose neighbor table satisfies the adjacency
invariants (neighbor indices in range, `which_vertex_not` in 0..5), the loop
of `stl_change_vertices`, started at any facet and `vnot`, either stops — an
open edge (`neighbor = -1`) or the starting facet again (Möbius diagnostic) —
or revisits a control state `(facet, vnot, direction)` and thus cycles
forever; the invariants alone do not rule the second case out
(`stl_change_vertices_nonterminating`). -/
theorem stl_change_vertices_terminates_or_revisits
    (rows : List stl_neighbors) (hok : fan_table_ok rows = true)
    (first vnot0 : Nat) (hf : first < rows.length) (hv : vnot0 < 6) :
    fan_terminates rows first ⟨(first : Int), vnot0, 0⟩ ∨
    ∃ m k : Nat, m < k ∧
      fan_orbit rows ⟨(first : Int), vnot0, 0⟩ m
        = fan_orbit rows ⟨(first : Int), vnot0, 0⟩ k := by
  by_cases ht : fan_terminates rows first ⟨(first : Int), vnot0, 0⟩
  · exact Or.inl ht
  · right
    rw [fan_terminates] at ht
    push_neg at ht
    have hnt : ∀ n : Nat,
        (fan_orbit rows ⟨(first : Int), vnot0, 0⟩ (n + 1)).facet ≠ -1 :=
      fun n => (ht n).1
    have hbd := fan_orbit_bounds rows hok first vnot0 hf hv hnt
    have hpos : 0 < rows.length := Nat.lt_of_le_of_lt (Nat.zero_le first) hf
    have hbound : ∀ n : Nat,
        (fan_orbit rows ⟨(first : Int), vnot0, 0⟩ n).facet.toNat
          + rows.length * ((fan_orbit rows ⟨(first : Int), vnot0, 0⟩ n).vnot
            + 6 * (fan_orbit rows ⟨(first : Int), vnot0, 0⟩ n).direction)
          < 12 * rows.length := by
      intro n
      obtain ⟨h0, h1, h2, h3⟩ := hbd n
      have htn : (fan_orbit rows ⟨(first : Int), vnot0, 0⟩ n).facet.toNat
          < rows.length := by omega
      have : (fan_orbit rows ⟨(first : Int), vnot0, 0⟩ n).vnot
          + 6 * (fan_orbit rows ⟨(first : Int), vnot0, 0⟩ n).direction ≤ 11 := by
        omega
      calc (fan_orbit rows ⟨(first : Int), vnot0, 0⟩ n).facet.toNat
            + rows.length * ((fan_orbit rows ⟨(first : Int), vnot0, 0⟩ n).vnot
              + 6 * (fan_orbit rows ⟨(first : Int), vnot0, 0⟩ n).direction)
          ≤ (rows.length - 1) + rows.length * 11 := by
            have := Nat.mul_le_mul_left rows.length this
            omega
        _ < 12 * rows.length := by omega
    obtain ⟨a, b, hab, heq⟩ := Finite.exists_ne_map_eq_of_infinite
      (fun n : ℕ => (⟨(fan_orbit rows ⟨(first : Int), vnot0, 0⟩ n).facet.toNat
          + rows.length * ((fan_orbit rows ⟨(first : Int), vnot0, 0⟩ n).vnot
            + 6 * (fan_orbit rows ⟨(first : Int), vnot0, 0⟩ n).direction),
        hbound n⟩ : Fin (12 * rows.length)))
    have hstates : fan_orbit rows ⟨(first : Int), vnot0, 0⟩ a
        = fan_orbit rows ⟨(first : Int), vnot0, 0⟩ b := by
      have hval : (fan_orbit rows ⟨(first : Int), vnot0, 0⟩ a).facet.toNat
          + rows.length * ((fan_orbit rows ⟨(first : Int), vnot0, 0⟩ a).vnot
            + 6 * (fan_orbit rows ⟨(first : Int), vnot0, 0⟩ a).direction)
          = (fan_orbit rows ⟨(first : Int), vnot0, 0⟩ b).facet.toNat
          + rows.length * ((fan_orbit rows ⟨(first : Int), vnot0, 0⟩ b).vnot
            + 6 * (fan_orbit rows ⟨(first : Int), vnot0, 0⟩ b).direction) :=
        congrArg Fin.val heq
      obtain ⟨a0, a1, a2, a3⟩ := hbd a
      obtain ⟨b0, b1, b2, b3⟩ := hbd b
      rcases horb_a : fan_orbit rows ⟨(first : Int), vnot0, 0⟩ a with ⟨fa, va, da⟩
      rcases horb_b : fan_orbit rows ⟨(first : Int), vnot0, 0⟩ b with ⟨fb, vb, db⟩
      rw [horb_a] at hval a0 a1 a2 a3
      rw [horb_b] at hval b0 b1 b2 b3
      simp only at hval a0 a1 a2 a3 b0 b1 b2 b3
      have hta : fa.toNat < rows.length := by omega
      have htb : fb.toNat < rows.length := by omega
      have h1 : fa.toNat = fb.toNat := by
        have e1 : (fa.toNat + rows.length * (va + 6 * da)) % rows.length
            = fa.toNat := by
          rw [Nat.add_mul_mod_self_left]
          exact Nat.mod_eq_of_lt hta
        have e2 : (fb.toNat + rows.length * (vb + 6 * db)) % rows.length
            = fb.toNat := by
          rw [Nat.add_mul_mod_self_left]
          exact Nat.mod_eq_of_lt htb
        rw [hval, e2] at e1
        exact e1.symm
      have h2 : va + 6 * da = vb + 6 * db := by
        have : rows.length * (va + 6 * da) = rows.length * (vb + 6 * db) := by
          omega
        exact Nat.eq_of_mul_eq_mul_left hpos this
      have hva : va = vb := by omega
      have hda : da = db := by omega
      have hfa : fa = fb := by
        have ha' : fa = (fa.toNat : Int) := (Int.toNat_of_nonneg a0).symm
        have hb' : fb = (fb.toNat : Int) := (Int.toNat_of_nonneg b0).symm
        rw [ha', hb', h1]
      simp [hfa, hva, hda]
    rcases Nat.lt_or_ge a b with h | h
    · exact ⟨a, b, h, hstates⟩
    · have hba : b < a := by omega
      exact ⟨b, a, hba, hstates.symm⟩

end Admesh

namespace Admesh

/-- Witness for C2's amended theorem on the one-facet table with all edges
open: the walk stops at once on the open edge. -/
theorem stl_change_vertices_terminates_or_revisits_witness :
    fan_terminates [stl_neighbors.init] 0 ⟨(0 : Int), 0, 0⟩ ∨
    ∃ m k : Nat, m < k ∧
      fan_orbit [stl_neighbors.init] ⟨(0 : Int), 0, 0⟩ m
        = fan_orbit [stl_neighbors.init] ⟨(0 : Int), 0, 0⟩ k :=
  stl_change_vertices_terminates_or_revisits [stl_neighbors.init]
    (by decide) 0 0 (by decide) (by decide)

end Admesh

namespace Admesh

/-! ## C9: the cumulative connectivity buckets -/

theorem countP_set_eq (l : List stl_neighbors) (i : Nat) (hi : i < l.length)
    (a : stl_neighbors) (p : stl_neighbors → Bool) :
    (l.set i a).countP p + (if p (l.getD i stl_neighbors.init) then 1 else 0)
      = l.countP p + (if p a then 1 else 0) := by
  induction l generalizing i with
  | nil => simp at hi
  | cons x t ih =>
    rcases i with _ | i
    · simp only [List.set_cons_zero, List.countP_cons, List.getD_cons_zero]
      split <;> split <;> omega
    · have hi' : i < t.length := by simpa using hi
      simp only [List.set_cons_succ, List.countP_cons, List.getD_cons_succ]
      have := ih i hi'
      omega

theorem countP_dropLast (l : List stl_neighbors) (h : l ≠ [])
    (p : stl_neighbors → Bool) :
    l.countP p = l.dropLast.countP p + (if p (l.getLast h) then 1 else 0) := by
  conv_lhs => rw [← List.dropLast_concat_getLast h]
  rw [List.countP_append]
  simp [List.countP_cons]

theorem countP_swap_remove (l : List stl_neighbors) (i : Nat) (hi : i < l.length)
    (p : stl_neighbors → Bool) :
    ((l.set i (l.getD (l.length - 1) stl_neighbors.init)).dropLast).countP p
      + (if p (l.getD i stl_neighbors.init) then 1 else 0) = l.countP p := by
  have hlen : l ≠ [] := by
    intro h
    rw [h] at hi
    simp at hi
  have hpos : 0 < l.length := List.length_pos.mpr hlen
  have hlast : l.getD (l.length - 1) stl_neighbors.init = l.getLast hlen := by
    rw [List.getD_eq_getElem _ _ (by omega), List.getLast_eq_getElem l hlen]
  have hset_ne : (l.set i (l.getD (l.length - 1) stl_neighbors.init)) ≠ [] :=
    List.length_pos.mp (by rw [List.length_set]; omega)
  have hL2 := countP_dropLast (l.set i (l.getD (l.length - 1) stl_neighbors.init))
    hset_ne p
  have hL1 := countP_set_eq l i hi (l.getD (l.length - 1) stl_neighbors.init) p
  have hglast : (l.set i (l.getD (l.length - 1) stl_neighbors.init)).getLast hset_ne
      = l.getLast hlen := by
    rw [List.getLast_eq_getElem _ hset_ne, List.getLast_eq_getElem l hlen]
    simp only [List.length_set]
    by_cases hi_last : i = l.length - 1
    · subst hi_last
      rw [List.getElem_set_self (by simp only [List.length_set]; omega)]
      rw [hlast, List.getLast_eq_getElem l hlen]
    · rw [List.getElem_set_ne hi_last]
  rw [hglast, ← hlast] at hL2
  by_cases hi_last : i = l.length - 1
  · subst hi_last
    omega
  · omega

end Admesh

namespace Admesh

/-- The number of facets whose connected-edge count is at least `k`: the
meaning of the cumulative `connected_facets_k_edge` counters. -/
def counts_ge (rows : List stl_neighbors) (k : Nat) : Nat :=
  rows.countP (fun r => decide (k ≤ 3 - r.num_unconnected))

/-- The three connectivity counters agree with the neighbor table: each
`connected_facets_k_edge` counts the facets with at least `k` connected
edges. -/
def counters_consistent (s : stl_file) : Prop :=
  s.stats.connected_facets_1_edge = (counts_ge s.neighbors 1 : Int) ∧
  s.stats.connected_facets_2_edge = (counts_ge s.neighbors 2 : Int) ∧
  s.stats.connected_facets_3_edge = (counts_ge s.neighbors 3 : Int)

instance (s : stl_file) : Decidable (counters_consistent s) := by
  unfold counters_consistent
  infer_instance

/-- The cumulative-bucket ordering of the claim. -/
def counters_ordered (s : stl_file) : Prop :=
  s.stats.connected_facets_2_edge ≤ s.stats.connected_facets_1_edge ∧
  s.stats.connected_facets_3_edge ≤ s.stats.connected_facets_2_edge ∧
  0 ≤ s.stats.connected_facets_3_edge

/-- `stl_update_connects_remove_1` (connect.cpp:773-789): take facet
`facet_num` out of the cumulative bucket matching its current connected-edge
count, in anticipation of one of its edges being disconnected. -/
def stl_update_connects_remove_1 (s : stl_file) (facet_num : Nat) : stl_file :=
  if s.error then s else
  let j := (s.row facet_num).num_unconnected
  if j = 0 then
    { s with stats := { s.stats with
        connected_facets_3_edge := s.stats.connected_facets_3_edge - 1 } }
  else if j = 1 then
    { s with stats := { s.stats with
        connected_facets_2_edge := s.stats.connected_facets_2_edge - 1 } }
  else if j = 2 then
    { s with stats := { s.stats with
        connected_facets_1_edge := s.stats.connected_facets_1_edge - 1 } }
  else s

/-- The bucket decrements of `stl_remove_facet` (connect.cpp:624-637): remove
the facet's contribution from every cumulative bucket it was counted in. -/
def remove_drop (st : stl_stats) (u : Nat) : stl_stats :=
  if u = 2 then
    { st with connected_facets_1_edge := st.connected_facets_1_edge - 1 }
  else if u = 1 then
    { st with connected_facets_2_edge := st.connected_facets_2_edge - 1,
              connected_facets_1_edge := st.connected_facets_1_edge - 1 }
  else if u = 0 then
    { st with connected_facets_3_edge := st.connected_facets_3_edge - 1,
              connected_facets_2_edge := st.connected_facets_2_edge - 1,
              connected_facets_1_edge := st.connected_facets_1_edge - 1 }
  else st

/-- One iteration of the back-pointer fix-up loop of `stl_remove_facet`
(connect.cpp:651-664): if the moved facet's neighbor across slot `i` exists,
its slot `(vnot+1) % 3` must still point at the old index (the new facet
count); if it does not, print and abandon (`none`); otherwise redirect it to
the facet's new slot. -/
def repoint_one (rows : List stl_neighbors) (facet_number n_new : Nat)
    (nb : Int) (vn : Nat) : Option (List stl_neighbors) :=
  if nb = -1 then some rows
  else if (rows.getD nb.toNat stl_neighbors.init).nbr (vn + 1) = (n_new : Int) then
    some (updRow rows nb.toNat (fun r => r.setNbr (vn + 1) (facet_number : Int)))
  else none

/-- The back-pointer fix-up loop of `stl_remove_facet` (connect.cpp:646-664)
over the moved facet's three cached neighbor slots, with the early return on a
broken back-pointer. -/
def repoint_loop (rows : List stl_neighbors) (fn n_new : Nat)
    (moved : stl_neighbors) : List stl_neighbors :=
  match repoint_one rows fn n_new (moved.nbr 0) (moved.wvn 0) with
  | none => rows
  | some ra =>
    match repoint_one ra fn n_new (moved.nbr 1) (moved.wvn 1) with
    | none => ra
    | some rb =>
      match repoint_one rb fn n_new (moved.nbr 2) (moved.wvn 2) with
      | none => rb
      | some rc => rc

/-- `stl_remove_facet` (connect.cpp:614-665): count the removal, take the
facet out of the cumulative connectivity buckets, move the last facet of both
parallel arrays into its slot and shrink them, then walk the moved facet's
three neighbor slots redirecting back-pointers from the old last index to the
new slot, abandoning the loop on an inconsistent back-pointer. -/
def stl_remove_facet (s : stl_file) (facet_number : Nat) : stl_file :=
  if s.error then s else
  let st1 := { s.stats with facets_removed := s.stats.facets_removed + 1 }
  let st2 := remove_drop st1 (s.row facet_number).num_unconnected
  let n_new := s.facets.length - 1
  let facets1 := (s.facets.set facet_number (s.facets.getD n_new default)).dropLast
  let rows1 := (s.neighbors.set facet_number
      (s.neighbors.getD n_new stl_neighbors.init)).dropLast
  let moved := rows1.getD facet_number stl_neighbors.init
  { s with facets := facets1,
           neighbors := repoint_loop rows1 facet_number n_new moved,
           stats := st2 }

end Admesh

namespace Admesh

theorem num_unc_setWvn (r : stl_neighbors) (j v : Nat) :
    (r.setWvn j v).num_unconnected = r.num_unconnected := by
  have h : j % 3 = 0 ∨ j % 3 = 1 ∨ j % 3 = 2 := by omega
  rcases h with h | h | h <;>
    simp [stl_neighbors.setWvn, stl_neighbors.num_unconnected, h]

theorem num_unc_setNbr_conn (r : stl_neighbors) (j : Nat) (v : Int)
    (hold : r.nbr j ≠ -1) (hv : v ≠ -1) :
    (r.setNbr j v).num_unconnected = r.num_unconnected := by
  have h : j % 3 = 0 ∨ j % 3 = 1 ∨ j % 3 = 2 := by omega
  rcases h with h | h | h <;>
    simp_all [stl_neighbors.setNbr, stl_neighbors.nbr, stl_neighbors.num_unconnected, h]

theorem num_unc_setNbr_free (r : stl_neighbors) (j : Nat) (v : Int)
    (hold : r.nbr j = -1) (hv : v ≠ -1) :
    (r.setNbr j v).num_unconnected + 1 = r.num_unconnected := by
  have h : j % 3 = 0 ∨ j % 3 = 1 ∨ j % 3 = 2 := by omega
  rcases h with h | h | h <;>
    simp_all [stl_neighbors.setNbr, stl_neighbors.nbr, stl_neighbors.num_unconnected, h] <;>
    omega

theorem num_unc_le (r : stl_neighbors) : r.num_unconnected ≤ 3 := by
  unfold stl_neighbors.num_unconnected
  split_ifs <;> omega

theorem countP_split (l : List stl_neighbors) (p q : stl_neighbors → Bool)
    (h : ∀ r, q r = true → p r = true) :
    l.countP p = l.countP q + l.countP (fun r => p r && !q r) := by
  induction l with
  | nil => simp
  | cons x t ih =>
    simp only [List.countP_cons, ih]
    by_cases hq : q x = true
    · have hp := h x hq
      simp [hp, hq]
      omega
    · have hq' : q x = false := by
        revert hq
        cases q x <;> simp
      by_cases hp : p x = true
      · simp [hp, hq']
        omega
      · have hp' : p x = false := by
          revert hp
          cases p x <;> simp
        simp [hp', hq']

theorem counts_ge_split_1 (rows : List stl_neighbors) :
    counts_ge rows 1 = counts_ge rows 2 +
      rows.countP (fun r => decide (r.num_unconnected = 2)) := by
  unfold counts_ge
  rw [countP_split rows _ (fun r => decide (2 ≤ 3 - r.num_unconnected))
    (fun r h => by simp_all; omega)]
  congr 1
  apply List.countP_congr
  intro r _
  have := num_unc_le r
  by_cases h2 : r.num_unconnected = 2 <;> simp_all <;> omega

theorem counts_ge_split_2 (rows : List stl_neighbors) :
    counts_ge rows 2 = counts_ge rows 3 +
      rows.countP (fun r => decide (r.num_unconnected = 1)) := by
  unfold counts_ge
  rw [countP_split rows _ (fun r => decide (3 ≤ 3 - r.num_unconnected))
    (fun r h => by simp_all; omega)]
  congr 1
  apply List.countP_congr
  intro r _
  have := num_unc_le r
  by_cases h2 : r.num_unconnected = 1 <;> simp_all <;> omega

theorem counts_ge_pos_of_row (rows : List stl_neighbors) (fn : Nat)
    (hfn : fn < rows.length) (p : stl_neighbors → Bool)
    (hp : p (rows.getD fn stl_neighbors.init) = true) :
    1 ≤ rows.countP p := by
  have : 0 < rows.countP p := List.countP_pos_iff.mpr
    ⟨rows.getD fn stl_neighbors.init,
      by rw [List.getD_eq_getElem _ _ hfn]; exact List.getElem_mem _, hp⟩
  omega

theorem getD_set_ne (l : List stl_neighbors) (i i' : Nat) (x : stl_neighbors)
    (h : i ≠ i') :
    (l.set i x).getD i' stl_neighbors.init = l.getD i' stl_neighbors.init := by
  simp [List.getD_eq_getElem?_getD, List.getElem?_set_ne h]

theorem countP_two_point (l l' : List stl_neighbors) (a b : Nat) (hab : a ≠ b)
    (ha : a < l.length) (hb : b < l.length) (hlen : l'.length = l.length)
    (hother : ∀ m : Nat, m ≠ a → m ≠ b →
      l'.getD m stl_neighbors.init = l.getD m stl_neighbors.init)
    (p : stl_neighbors → Bool) :
    l'.countP p + (if p (l.getD a stl_neighbors.init) then 1 else 0)
      + (if p (l.getD b stl_neighbors.init) then 1 else 0)
    = l.countP p + (if p (l'.getD a stl_neighbors.init) then 1 else 0)
      + (if p (l'.getD b stl_neighbors.init) then 1 else 0) := by
  have hrepr : l' = (l.set a (l'.getD a stl_neighbors.init)).set b
      (l'.getD b stl_neighbors.init) := by
    refine List.ext_getElem (by simp [hlen]) ?_
    intro m hm1 hm2
    by_cases hmb : m = b
    · subst hmb
      rw [List.getElem_set_self (by simp [hb])]
      rw [← List.getD_eq_getElem l' stl_neighbors.init hm1]
    · by_cases hma : m = a
      · subst hma
        rw [List.getElem_set_ne (Ne.symm hmb)]
        rw [List.getElem_set_self (by simpa using ha)]
        rw [← List.getD_eq_getElem l' stl_neighbors.init hm1]
      · rw [List.getElem_set_ne (fun hx => hmb hx.symm),
          List.getElem_set_ne (fun hx => hma hx.symm)]
        have := hother m hma hmb
        rw [List.getD_eq_getElem l' stl_neighbors.init hm1,
          List.getD_eq_getElem l stl_neighbors.init (by simpa using hm2)] at this
        exact this
  have h1 := countP_set_eq l a ha (l'.getD a stl_neighbors.init) p
  have h2 := countP_set_eq (l.set a (l'.getD a stl_neighbors.init)) b
    (by simpa using hb) (l'.getD b stl_neighbors.init) p
  have h3 := getD_set_ne l a b (l'.getD a stl_neighbors.init) hab
  have h4 : l'.countP p = ((l.set a (l'.getD a stl_neighbors.init)).set b
      (l'.getD b stl_neighbors.init)).countP p := by
    conv_lhs => rw [hrepr]
  rw [h3] at h2
  omega

end Admesh

namespace Admesh

theorem record_neighbors_length (s : stl_file) (ea eb : stl_hash_edge) :
    (stl_record_neighbors s ea eb).neighbors.length = s.neighbors.length := by
  unfold stl_record_neighbors
  split
  · rfl
  · simp only
    split <;> simp [length_updRow]

theorem record_unc_a (s : stl_file) (ea eb : stl_hash_edge)
    (herr : s.error = false) (hab : ea.facet_number ≠ eb.facet_number)
    (hfa : ea.facet_number < s.neighbors.length)
    (ha : (s.row ea.facet_number).nbr ea.which_edge = -1) :
    ((stl_record_neighbors s ea eb).row ea.facet_number).num_unconnected + 1
      = (s.row ea.facet_number).num_unconnected := by
  rw [record_row_a s ea eb herr hab hfa]
  split
  · rw [num_unc_setWvn, num_unc_setWvn]
    exact num_unc_setNbr_free _ _ _ ha (by omega)
  · rw [num_unc_setWvn]
    exact num_unc_setNbr_free _ _ _ ha (by omega)

theorem record_unc_b (s : stl_file) (ea eb : stl_hash_edge)
    (herr : s.error = false) (hab : ea.facet_number ≠ eb.facet_number)
    (hfb : eb.facet_number < s.neighbors.length)
    (hb : (s.row eb.facet_number).nbr eb.which_edge = -1) :
    ((stl_record_neighbors s ea eb).row eb.facet_number).num_unconnected + 1
      = (s.row eb.facet_number).num_unconnected := by
  rw [record_row_b s ea eb herr hab hfb]
  split
  · rw [num_unc_setWvn, num_unc_setWvn]
    exact num_unc_setNbr_free _ _ _ hb (by omega)
  · rw [num_unc_setWvn]
    exact num_unc_setNbr_free _ _ _ hb (by omega)

theorem record_bump_c1 (st : stl_stats) (u : Nat) :
    (record_bump st u).connected_facets_1_edge
      = st.connected_facets_1_edge + (if u = 2 then 1 else 0) := by
  unfold record_bump
  split_ifs <;> simp

theorem record_bump_c2 (st : stl_stats) (u : Nat) :
    (record_bump st u).connected_facets_2_edge
      = st.connected_facets_2_edge + (if u = 2 then 0 else if u = 1 then 1 else 0) := by
  unfold record_bump
  split_ifs <;> simp

theorem record_bump_c3 (st : stl_stats) (u : Nat) :
    (record_bump st u).connected_facets_3_edge
      = st.connected_facets_3_edge + (if u = 2 then 0 else if u = 1 then 0 else 1) := by
  unfold record_bump
  split_ifs <;> simp

theorem record_stats (s : stl_file) (ea eb : stl_hash_edge) (herr : s.error = false) :
    (stl_record_neighbors s ea eb).stats =
      record_bump (record_bump
        { s.stats with connected_edges := s.stats.connected_edges + 2 }
        (((stl_record_neighbors s ea eb).row ea.facet_number).num_unconnected))
        (((stl_record_neighbors s ea eb).row eb.facet_number).num_unconnected) := by
  simp only [stl_record_neighbors, stl_file.row, herr, Bool.false_eq_true, if_false]

set_option maxHeartbeats 1000000 in
/-- `stl_record_neighbors` keeps the cumulative connectivity counters
consistent with the neighbor table. -/
theorem stl_record_neighbors_consistent (s : stl_file) (ea eb : stl_hash_edge)
    (herr : s.error = false) (hab : ea.facet_number ≠ eb.facet_number)
    (hfa : ea.facet_number < s.neighbors.length)
    (hfb : eb.facet_number < s.neighbors.length)
    (ha : (s.row ea.facet_number).nbr ea.which_edge = -1)
    (hb : (s.row eb.facet_number).nbr eb.which_edge = -1)
    (hcons : counters_consistent s) :
    counters_consistent (stl_record_neighbors s ea eb) := by
  obtain ⟨h1, h2, h3⟩ := hcons
  have hua := record_unc_a s ea eb herr hab hfa ha
  have hub := record_unc_b s ea eb herr hab hfb hb
  have hstats := record_stats s ea eb herr
  have hlen := record_neighbors_length s ea eb
  have hother : ∀ m : Nat, m ≠ ea.facet_number → m ≠ eb.facet_number →
      (stl_record_neighbors s ea eb).neighbors.getD m stl_neighbors.init
        = s.neighbors.getD m stl_neighbors.init :=
    fun m hma hmb => record_row_other s ea eb m hma hmb
  have hcnt : ∀ k : Nat,
      counts_ge (stl_record_neighbors s ea eb).neighbors k
        + (if k ≤ 3 - (s.row ea.facet_number).num_unconnected then 1 else 0)
        + (if k ≤ 3 - (s.row eb.facet_number).num_unconnected then 1 else 0)
      = counts_ge s.neighbors k
        + (if k ≤ 3 - ((stl_record_neighbors s ea eb).row
              ea.facet_number).num_unconnected then 1 else 0)
        + (if k ≤ 3 - ((stl_record_neighbors s ea eb).row
              eb.facet_number).num_unconnected then 1 else 0) := by
    intro k
    have := countP_two_point s.neighbors (stl_record_neighbors s ea eb).neighbors
      ea.facet_number eb.facet_number hab hfa hfb hlen hother
      (fun r => decide (k ≤ 3 - r.num_unconnected))
    simp only [decide_eq_true_eq] at this
    exact this
  have hba := num_unc_le (s.row ea.facet_number)
  have hbb := num_unc_le (s.row eb.facet_number)
  refine ⟨?_, ?_, ?_⟩
  · have e := hcnt 1
    rw [hstats, record_bump_c1, record_bump_c1]
    dsimp only
    rw [h1]
    set uA := ((stl_record_neighbors s ea eb).row ea.facet_number).num_unconnected
    set uB := ((stl_record_neighbors s ea eb).row eb.facet_number).num_unconnected
    set oA := (s.row ea.facet_number).num_unconnected
    set oB := (s.row eb.facet_number).num_unconnected
    set cR := counts_ge (stl_record_neighbors s ea eb).neighbors 1
    set cS := counts_ge s.neighbors 1
    split_ifs at e ⊢ <;> omega
  · have e := hcnt 2
    rw [hstats, record_bump_c2, record_bump_c2]
    dsimp only
    rw [h2]
    set uA := ((stl_record_neighbors s ea eb).row ea.facet_number).num_unconnected
    set uB := ((stl_record_neighbors s ea eb).row eb.facet_number).num_unconnected
    set oA := (s.row ea.facet_number).num_unconnected
    set oB := (s.row eb.facet_number).num_unconnected
    set cR := counts_ge (stl_record_neighbors s ea eb).neighbors 2
    set cS := counts_ge s.neighbors 2
    split_ifs at e ⊢ <;> omega
  · have e := hcnt 3
    rw [hstats, record_bump_c3, record_bump_c3]
    dsimp only
    rw [h3]
    set uA := ((stl_record_neighbors s ea eb).row ea.facet_number).num_unconnected
    set uB := ((stl_record_neighbors s ea eb).row eb.facet_number).num_unconnected
    set oA := (s.row ea.facet_number).num_unconnected
    set oB := (s.row eb.facet_number).num_unconnected
    set cR := counts_ge (stl_record_neighbors s ea eb).neighbors 3
    set cS := counts_ge s.neighbors 3
    split_ifs at e ⊢ <;> omega

end Admesh

namespace Admesh

theorem repoint_one_counts (rows : List stl_neighbors) (fn n_new : Nat)
    (nb : Int) (vn : Nat) (rows' : List stl_neighbors)
    (h : repoint_one rows fn n_new nb vn = some rows') (k : Nat) :
    counts_ge rows' k = counts_ge rows k := by
  unfold repoint_one at h
  split at h
  · cases h
    rfl
  · split at h
    · cases h
      rename_i hnb hguard
      have hlt : nb.toNat < rows.length := by
        by_contra hge
        push_neg at hge
        have hdef : rows.getD nb.toNat stl_neighbors.init = stl_neighbors.init := by
          rw [List.getD_eq_getElem?_getD, List.getElem?_eq_none (by omega)]
          rfl
        rw [hdef, init_nbr] at hguard
        omega
      unfold counts_ge updRow
      dsimp only
      have hset := countP_set_eq rows nb.toNat hlt
        ((rows.getD nb.toNat stl_neighbors.init).setNbr (vn + 1) (fn : Int))
        (fun r => decide (k ≤ 3 - r.num_unconnected))
      have hunc : ((rows.getD nb.toNat stl_neighbors.init).setNbr (vn + 1)
          (fn : Int)).num_unconnected
          = (rows.getD nb.toNat stl_neighbors.init).num_unconnected :=
        num_unc_setNbr_conn _ _ _ (by rw [hguard]; omega) (by omega)
      rw [hunc] at hset
      omega
    · cases h

theorem repoint_loop_counts (rows : List stl_neighbors) (fn n_new : Nat)
    (moved : stl_neighbors) (k : Nat) :
    counts_ge (repoint_loop rows fn n_new moved) k = counts_ge rows k := by
  unfold repoint_loop
  rcases h0 : repoint_one rows fn n_new (moved.nbr 0) (moved.wvn 0) with _ | ra
  · rfl
  · simp only
    rcases h1 : repoint_one ra fn n_new (moved.nbr 1) (moved.wvn 1) with _ | rb
    · exact repoint_one_counts _ _ _ _ _ _ h0 k
    · simp only
      rcases h2 : repoint_one rb fn n_new (moved.nbr 2) (moved.wvn 2) with _ | rc
      · rw [repoint_one_counts _ _ _ _ _ _ h1, repoint_one_counts _ _ _ _ _ _ h0]
      · simp only
        rw [repoint_one_counts _ _ _ _ _ _ h2, repoint_one_counts _ _ _ _ _ _ h1,
          repoint_one_counts _ _ _ _ _ _ h0]

theorem remove_drop_c1 (st : stl_stats) (u : Nat) :
    (remove_drop st u).connected_facets_1_edge
      = st.connected_facets_1_edge - (if u ≤ 2 then 1 else 0) := by
  unfold remove_drop
  split_ifs <;> first | rfl | omega | simp

theorem remove_drop_c2 (st : stl_stats) (u : Nat) :
    (remove_drop st u).connected_facets_2_edge
      = st.connected_facets_2_edge - (if u ≤ 1 then 1 else 0) := by
  unfold remove_drop
  split_ifs <;> first | rfl | omega | simp

theorem remove_drop_c3 (st : stl_stats) (u : Nat) :
    (remove_drop st u).connected_facets_3_edge
      = st.connected_facets_3_edge - (if u = 0 then 1 else 0) := by
  unfold remove_drop
  split_ifs <;> first | rfl | omega | simp

theorem remove_facet_stats (s : stl_file) (fn : Nat) (herr : s.error = false) :
    (stl_remove_facet s fn).stats =
      remove_drop { s.stats with facets_removed := s.stats.facets_removed + 1 }
        ((s.row fn).num_unconnected) := by
  simp only [stl_remove_facet, herr, Bool.false_eq_true, if_false]

theorem remove_facet_neighbors (s : stl_file) (fn : Nat) (herr : s.error = false) :
    (stl_remove_facet s fn).neighbors =
      repoint_loop
        ((s.neighbors.set fn
          (s.neighbors.getD (s.facets.length - 1) stl_neighbors.init)).dropLast)
        fn (s.facets.length - 1)
        (((s.neighbors.set fn
          (s.neighbors.getD (s.facets.length - 1) stl_neighbors.init)).dropLast).getD
          fn stl_neighbors.init) := by
  simp only [stl_remove_facet, herr, Bool.false_eq_true, if_false]

/-- `stl_remove_facet` keeps the cumulative connectivity counters consistent
with the neighbor table. -/
theorem stl_remove_facet_consistent (s : stl_file) (fn : Nat)
    (herr : s.error = false) (hfn : fn < s.facets.length)
    (hpar : s.neighbors.length = s.facets.length)
    (hcons : counters_consistent s) :
    counters_consistent (stl_remove_facet s fn) := by
  obtain ⟨h1, h2, h3⟩ := hcons
  have hfn' : fn < s.neighbors.length := by omega
  have hstats := remove_facet_stats s fn herr
  have hrows := remove_facet_neighbors s fn herr
  have hcnt : ∀ k : Nat,
      counts_ge (stl_remove_facet s fn).neighbors k
        + (if k ≤ 3 - (s.row fn).num_unconnected then 1 else 0)
      = counts_ge s.neighbors k := by
    intro k
    rw [hrows, repoint_loop_counts]
    have hsw := countP_swap_remove s.neighbors fn hfn'
      (fun r => decide (k ≤ 3 - r.num_unconnected))
    simp only [decide_eq_true_eq] at hsw
    rw [hpar] at hsw
    exact hsw
  have hb := num_unc_le (s.row fn)
  refine ⟨?_, ?_, ?_⟩
  · have e := hcnt 1
    rw [hstats, remove_drop_c1]
    dsimp only
    rw [h1]
    set u := (s.row fn).num_unconnected
    set cR := counts_ge (stl_remove_facet s fn).neighbors 1
    set cS := counts_ge s.neighbors 1
    split_ifs at e ⊢ <;> omega
  · have e := hcnt 2
    rw [hstats, remove_drop_c2]
    dsimp only
    rw [h2]
    set u := (s.row fn).num_unconnected
    set cR := counts_ge (stl_remove_facet s fn).neighbors 2
    set cS := counts_ge s.neighbors 2
    split_ifs at e ⊢ <;> omega
  · have e := hcnt 3
    rw [hstats, remove_drop_c3]
    dsimp only
    rw [h3]
    set u := (s.row fn).num_unconnected
    set cR := counts_ge (stl_remove_facet s fn).neighbors 3
    set cS := counts_ge s.neighbors 3
    split_ifs at e ⊢ <;> omega

end Admesh

namespace Admesh

/-- Consistent counters are ordered: the buckets count nested sets. -/
theorem counters_consistent_ordered (s : stl_file)
    (hcons : counters_consistent s) : counters_ordered s := by
  obtain ⟨h1, h2, h3⟩ := hcons
  have s1 := counts_ge_split_1 s.neighbors
  have s2 := counts_ge_split_2 s.neighbors
  refine ⟨?_, ?_, ?_⟩
  · rw [h1, h2]
    omega
  · rw [h2, h3]
    omega
  · rw [h3]
    omega

/-- `stl_update_connects_remove_1` preserves the bucket ordering when run on
counters consistent with the table (the counters are deliberately left
desynchronized, anticipating the neighbor change that follows). -/
theorem stl_update_connects_remove_1_ordered (s : stl_file) (fn : Nat)
    (herr : s.error = false) (hfn : fn < s.neighbors.length)
    (hcons : counters_consistent s) :
    counters_ordered (stl_update_connects_remove_1 s fn) := by
  obtain ⟨h1, h2, h3⟩ := hcons
  have s1 := counts_ge_split_1 s.neighbors
  have s2 := counts_ge_split_2 s.neighbors
  unfold stl_update_connects_remove_1
  rw [herr]
  simp only [Bool.false_eq_true, if_false]
  by_cases j0 : (s.row fn).num_unconnected = 0
  · rw [if_pos j0]
    rw [stl_file.row] at j0
    have hpos3 : 1 ≤ counts_ge s.neighbors 3 :=
      counts_ge_pos_of_row s.neighbors fn hfn _
        (show decide (3 ≤ 3 -
            (s.neighbors.getD fn stl_neighbors.init).num_unconnected) = true by
          rw [j0]
          decide)
    refine ⟨?_, ?_, ?_⟩ <;> dsimp only <;> omega
  · rw [if_neg j0]
    by_cases j1 : (s.row fn).num_unconnected = 1
    · rw [if_pos j1]
      rw [stl_file.row] at j1
      have hpos : 1 ≤ s.neighbors.countP
          (fun r => decide (r.num_unconnected = 1)) :=
        counts_ge_pos_of_row s.neighbors fn hfn _
          (show decide
              ((s.neighbors.getD fn stl_neighbors.init).num_unconnected = 1) = true by
            rw [j1]
            decide)
      refine ⟨?_, ?_, ?_⟩ <;> dsimp only <;> omega
    · rw [if_neg j1]
      by_cases j2 : (s.row fn).num_unconnected = 2
      · rw [if_pos j2]
        rw [stl_file.row] at j2
        have hpos : 1 ≤ s.neighbors.countP
            (fun r => decide (r.num_unconnected = 2)) :=
          counts_ge_pos_of_row s.neighbors fn hfn _
            (show decide
                ((s.neighbors.getD fn stl_neighbors.init).num_unconnected = 2) = true by
              rw [j2]
              decide)
        refine ⟨?_, ?_, ?_⟩ <;> dsimp only <;> omega
      · rw [if_neg j2]
        exact counters_consistent_ordered s ⟨h1, h2, h3⟩

/-- Under consistency, the facets with exactly one disconnected edge are
counted by the difference of the two upper buckets. -/
theorem exact_one_disconnected (s : stl_file) (hcons : counters_consistent s) :
    s.stats.connected_facets_2_edge - s.stats.connected_facets_3_edge
      = (s.neighbors.countP (fun r => decide (r.num_unconnected = 1)) : Int) := by
  obtain ⟨h1, h2, h3⟩ := hcons
  have s2 := counts_ge_split_2 s.neighbors
  rw [h2, h3]
  omega

/-- C9: the connectivity counters are cumulative — `connected_facets_k_edge`
counts the facets with at least `k` connected edges — and each updating
operation respects that reading: `stl_record_neighbors` and `stl_remove_facet`
keep the counters consistent with the table (hence
`c1 ≥ c2 ≥ c3 ≥ 0`), `stl_update_connects_remove_1` preserves the ordering,
and under consistency `c2 − c3` is exactly the number of facets with exactly
one disconnected edge. -/
theorem connected_counters_cumulative_spec :
    (∀ (s : stl_file) (ea eb : stl_hash_edge),
      s.error = false → ea.facet_number ≠ eb.facet_number →
      ea.facet_number < s.neighbors.length →
      eb.facet_number < s.neighbors.length →
      (s.row ea.facet_number).nbr ea.which_edge = -1 →
      (s.row eb.facet_number).nbr eb.which_edge = -1 →
      counters_consistent s →
      counters_consistent (stl_record_neighbors s ea eb) ∧
        counters_ordered (stl_record_neighbors s ea eb)) ∧
    (∀ (s : stl_file) (fn : Nat),
      s.error = false → fn < s.facets.length →
      s.neighbors.length = s.facets.length →
      counters_consistent s →
      counters_consistent (stl_remove_facet s fn) ∧
        counters_ordered (stl_remove_facet s fn)) ∧
    (∀ (s : stl_file) (fn : Nat),
      s.error = false → fn < s.neighbors.length → counters_consistent s →
      counters_ordered (stl_update_connects_remove_1 s fn)) ∧
    (∀ s : stl_file, counters_consistent s →
      s.stats.connected_facets_2_edge - s.stats.connected_facets_3_edge
        = (s.neighbors.countP (fun r => decide (r.num_unconnected = 1)) : Int)) := by
  refine ⟨?_, ?_, ?_, ?_⟩
  · intro s ea eb herr hab hfa hfb ha hb hcons
    have h := stl_record_neighbors_consistent s ea eb herr hab hfa hfb ha hb hcons
    exact ⟨h, counters_consistent_ordered _ h⟩
  · intro s fn herr hfn hpar hcons
    have h := stl_remove_facet_consistent s fn herr hfn hpar hcons
    exact ⟨h, counters_consistent_ordered _ h⟩
  · intro s fn herr hfn hcons
    exact stl_update_connects_remove_1_ordered s fn herr hfn hcons
  · intro s hcons
    exact exact_one_disconnected s hcons

/-- Witness for C9 on concrete one- and two-facet meshes with zeroed,
consistent counters. -/
theorem connected_counters_cumulative_spec_witness :
    (counters_consistent (stl_record_neighbors
        ⟨[default, default], [stl_neighbors.init, stl_neighbors.init],
          ⟨0, 0, 0, 0, 0, 0, 0, 0, 0, 0, 0, 0⟩, false⟩
        ⟨[1, 2, 3, 4, 5, 6], 0, 0⟩ ⟨[1, 2, 3, 4, 5, 6], 1, 4⟩) ∧
      counters_ordered (stl_record_neighbors
        ⟨[default, default], [stl_neighbors.init, stl_neighbors.init],
          ⟨0, 0, 0, 0, 0, 0, 0, 0, 0, 0, 0, 0⟩, false⟩
        ⟨[1, 2, 3, 4, 5, 6], 0, 0⟩ ⟨[1, 2, 3, 4, 5, 6], 1, 4⟩)) ∧
    (counters_consistent (stl_remove_facet
        ⟨[default], [stl_neighbors.init],
          ⟨0, 0, 0, 0, 0, 0, 0, 0, 0, 0, 0, 0⟩, false⟩ 0) ∧
      counters_ordered (stl_remove_facet
        ⟨[default], [stl_neighbors.init],
          ⟨0, 0, 0, 0, 0, 0, 0, 0, 0, 0, 0, 0⟩, false⟩ 0)) ∧
    counters_ordered (stl_update_connects_remove_1
        ⟨[default], [stl_neighbors.init],
          ⟨0, 0, 0, 0, 0, 0, 0, 0, 0, 0, 0, 0⟩, false⟩ 0) ∧
    (⟨[default], [stl_neighbors.init],
        ⟨0, 0, 0, 0, 0, 0, 0, 0, 0, 0, 0, 0⟩, false⟩ :
          stl_file).stats.connected_facets_2_edge -
      (⟨[default], [stl_neighbors.init],
        ⟨0, 0, 0, 0, 0, 0, 0, 0, 0, 0, 0, 0⟩, false⟩ :
          stl_file).stats.connected_facets_3_edge
      = (([stl_neighbors.init] : List stl_neighbors).countP
          (fun r => decide (r.num_unconnected = 1)) : Int) :=
  ⟨connected_counters_cumulative_spec.1
      ⟨[default, default], [stl_neighbors.init, stl_neighbors.init],
        ⟨0, 0, 0, 0, 0, 0, 0, 0, 0, 0, 0, 0⟩, false⟩
      ⟨[1, 2, 3, 4, 5, 6], 0, 0⟩ ⟨[1, 2, 3, 4, 5, 6], 1, 4⟩
      rfl (by decide) (by decide) (by decide) (by decide) (by decide) (by decide),
   connected_counters_cumulative_spec.2.1
      ⟨[default], [stl_neighbors.init],
        ⟨0, 0, 0, 0, 0, 0, 0, 0, 0, 0, 0, 0⟩, false⟩ 0
      rfl (by decide) (by decide) (by decide),
   connected_counters_cumulative_spec.2.2.1
      ⟨[default], [stl_neighbors.init],
        ⟨0, 0, 0, 0, 0, 0, 0, 0, 0, 0, 0, 0⟩, false⟩ 0
      rfl (by decide) (by decide),
   connected_counters_cumulative_spec.2.2.2
      ⟨[default], [stl_neighbors.init],
        ⟨0, 0, 0, 0, 0, 0, 0, 0, 0, 0, 0, 0⟩, false⟩ (by decide)⟩

end Admesh

namespace Admesh

/-! ## C10: error-flag gating of the core operations

The six gated operations are embedded in full so that the gate theorems are
about the real bodies.  Two pieces of accounting are abstracted: the
`malloced`/`freed`/`collisions` bookkeeping of the scratch hash table (pure
instrumentation of the allocator, invisible to the mesh), and the
floating-point `shortest_edge` minimum taken in `stl_load_edge_exact` (float
arithmetic).  The hash function over the 24 key bytes and the nearby-pass
grid quantization `floor((v - min)/tolerance)` (both floating-point or
declared outside `src/`) are taken as parameters, so every theorem holds for
all of them. -/

/-- Modelled from the spec: `stl_vertex_lower` (declared in `stl.h`, which is
not under `src/`): lexicographic ordering of two vertices on the three
components, used to canonicalize exact edge keys. -/
def stl_vertex_lower (a b : stl_vertex) : Bool :=
  if a.x ≠ b.x then a.x < b.x
  else if a.y ≠ b.y then a.y < b.y
  else a.z < b.z

/-- Key construction of `stl_load_edge_exact` (connect.cpp:110-142): put the
lexicographically smaller vertex first, flag `backwards` when the pair was
swapped, then normalize negative zeros in all six words. -/
def stl_load_edge_exact (a b : stl_vertex) : List Word × Bool :=
  if stl_vertex_lower a b then
    (normalize_key [a.x, a.y, a.z, b.x, b.y, b.z], false)
  else
    (normalize_key [b.x, b.y, b.z, a.x, a.y, a.z], true)

/-- The 32-bit two's-complement bit pattern of a quantized grid cell, as
`memcpy`ed into the nearby key. -/
def int32_word (z : Int) : Word := (z % 4294967296).toNat

/-- `stl_load_edge_nearby` (connect.cpp:288-315) with the grid quantization
(float arithmetic) supplied as `quant`: skip the edge when both endpoints land
in the same cell, else order the two cells lexicographically (signed `int32`
comparison) and flag `backwards` when swapped. -/
def stl_load_edge_nearby (quant : stl_vertex → Int × Int × Int)
    (a b : stl_vertex) : Option (List Word × Bool) :=
  let v1 := quant a
  let v2 := quant b
  if v1 = v2 then none
  else if (if v1.1 ≠ v2.1 then v1.1 < v2.1
           else if v1.2.1 ≠ v2.2.1 then v1.2.1 < v2.2.1
           else v1.2.2 < v2.2.2) then
    some ([int32_word v1.1, int32_word v1.2.1, int32_word v1.2.2,
           int32_word v2.1, int32_word v2.2.1, int32_word v2.2.2], false)
  else
    some ([int32_word v2.1, int32_word v2.2.1, int32_word v2.2.2,
           int32_word v1.1, int32_word v1.2.1, int32_word v1.2.2], true)

/-- One call of `insert_hash_edge` (connect.cpp:186-244) against the whole
bucket array: hash the key into a bucket, run the chain logic of
`insert_hash_edge`, and on a match invoke the `match_neighbors` callback with
the new edge first and the stored edge second. -/
def insert_hash_edge_table (hashFn : List Word → Nat) (M : Nat)
    (matcher : stl_file → stl_hash_edge → stl_hash_edge → stl_file)
    (tbl : Nat → List stl_hash_edge) (s : stl_file) (e : stl_hash_edge) :
    (Nat → List stl_hash_edge) × stl_file :=
  if s.error then (tbl, s) else
  let b := hashFn e.key % M
  let r := insert_hash_edge (tbl b) e
  let tbl' := fun m => if m = b then r.2 else tbl m
  match r.1 with
  | some link => (tbl', matcher s e link)
  | none => (tbl', s)

/-- Vertex assignment `facet.vertex[j % 3] = v`. -/
def stl_facet.setVertex (f : stl_facet) (j : Nat) (v : stl_vertex) : stl_facet :=
  match j % 3 with
  | 0 => { f with v0 := v }
  | 1 => { f with v1 := v }
  | _ => { f with v2 := v }

/-- In-place update of one facet of the array. -/
def updFacet (facets : List stl_facet) (i : Nat)
    (g : stl_facet → stl_facet) : List stl_facet :=
  facets.set i (g (facets.getD i default))

/-- `pivot_vertex` computed at the top of the fan-walk loop body
(connect.cpp:483-501). -/
def fan_pivot (vnot direction : Nat) : Nat :=
  if 2 < vnot then
    if direction = 0 then (vnot + 2) % 3 else (vnot + 1) % 3
  else
    if direction = 0 then (vnot + 1) % 3 else (vnot + 2) % 3

/-- The loop of `stl_change_vertices` (connect.cpp:482-545), fuelled: write
the new coordinate into the pivot vertex of the current facet, hop across
`next_edge`, stop on an open edge, stop with the Möbius diagnostic when back
at the first facet.  Exhausted fuel returns the state reached so far (the
walk may cycle forever, see the C2 theorems). -/
def change_vertices_loop (fuel : Nat) (first : Nat) (s : stl_file)
    (facet_num vnot direction : Nat) (v : stl_vertex) : stl_file :=
  match fuel with
  | 0 => s
  | fuel + 1 =>
    let pivot := fan_pivot vnot direction
    let e := (fan_next_edge vnot direction).1
    let d := (fan_next_edge vnot direction).2
    let s1 := { s with facets :=
      (updFacet s.facets facet_num (fun f => f.setVertex pivot v)) }
    let vnot' := (s1.row facet_num).wvn e
    let next := (s1.row facet_num).nbr e
    if next = -1 then s1
    else if next = (first : Int) then s1
    else change_vertices_loop fuel first s1 next.toNat vnot' d v

/-- `stl_change_vertices` (connect.cpp:471-545). -/
def stl_change_vertices (fuel : Nat) (s : stl_file) (facet_num vnot : Nat)
    (v : stl_vertex) : stl_file :=
  if s.error then s else change_vertices_loop fuel facet_num s facet_num vnot 0 v

/-- `stl_match_neighbors_nearby` (connect.cpp:429-468): record the neighbor
relation, pick the vertices to snap, run the fan walk for each chosen vertex,
and count two fixed edges. -/
def stl_match_neighbors_nearby (fuel : Nat) (s : stl_file)
    (edge_a edge_b : stl_hash_edge) : stl_file :=
  if s.error then s else
  let s1 := stl_record_neighbors s edge_a edge_b
  let p := stl_which_vertices_to_change s1 edge_a edge_b
  let s2 :=
    match p.1 with
    | none => s1
    | some (f1, v1, nv1) =>
      let vnot1 := if f1 = edge_a.facet_number then (edge_a.which_edge + 2) % 3
        else (edge_b.which_edge + 2) % 3
      let vnot1 := if (vnot1 + 2) % 3 = v1 then vnot1 + 3 else vnot1
      stl_change_vertices fuel s1 f1 vnot1 nv1
  let s3 :=
    match p.2 with
    | none => s2
    | some (f2, v2, nv2) =>
      let vnot2 := if f2 = edge_a.facet_number then (edge_a.which_edge + 2) % 3
        else (edge_b.which_edge + 2) % 3
      let vnot2 := if (vnot2 + 2) % 3 = v2 then vnot2 + 3 else vnot2
      stl_change_vertices fuel s2 f2 vnot2 nv2
  { s3 with stats := { s3.stats with edges_fixed := s3.stats.edges_fixed + 2 } }

/-- `stl_add_facet` (connect.cpp:898-921): count the addition, grow the
allocation in blocks of 256 when needed, append the facet with its normal
zeroed and all three neighbor slots unconnected. -/
def stl_add_facet (s : stl_file) (new_facet : stl_facet) : stl_file :=
  if s.error then s else
  let st1 := { s.stats with facets_added := s.stats.facets_added + 1 }
  let st2 := if st1.facets_malloced < (s.facets.length : Int) + 1 then
      { st1 with facets_malloced := st1.facets_malloced + 256 }
    else st1
  { s with
    facets := s.facets ++ [{ new_facet with normal := ⟨0, 0, 0⟩ }],
    neighbors := s.neighbors ++ [stl_neighbors.init],
    stats := st2 }

/-- `stl_write_binary` (stl_io.cpp:200-243) as a function from the mesh to the
emitted bytes: `none` when the error flag blocks the write.  Each facet's
50-byte record is its 12 little-endian words plus the 2 attribute bytes. -/
def facet_record_bytes (f : stl_facet) : List Nat :=
  le32_encode f.normal.x ++ le32_encode f.normal.y ++ le32_encode f.normal.z ++
  le32_encode f.v0.x ++ le32_encode f.v0.y ++ le32_encode f.v0.z ++
  le32_encode f.v1.x ++ le32_encode f.v1.y ++ le32_encode f.v1.z ++
  le32_encode f.v2.x ++ le32_encode f.v2.y ++ le32_encode f.v2.z ++
  [f.extra % 256, f.extra / 256 % 256]

def stl_write_binary_run (s : stl_file) (label : List Nat) : Option (List Nat) :=
  if s.error then none else
  some (stl_write_binary_bytes label s.facets.length (s.facets.map facet_record_bytes))

/-- `stl_write_ascii` (stl_io.cpp:110-153) abstracted to the sequence of
emitted facet records (normal and three vertices, in order); the `% .8E`
decimal rendering of the float words is not modelled.  `none` when the error
flag blocks the write. -/
def stl_write_ascii_run (s : stl_file) (label : List Nat) :
    Option (List (stl_vertex × stl_vertex × stl_vertex × stl_vertex)) :=
  if s.error then none else
  some (s.facets.map (fun f => (f.normal, f.v0, f.v1, f.v2)))

end Admesh

namespace Admesh

/-- The edge-insertion loop of `stl_check_facets_exact` (connect.cpp:91-100)
over the flattened `(facet, edge)` pairs. -/
def check_exact_loop (hashFn : List Word → Nat) (M : Nat) :
    List (Nat × Nat) → (Nat → List stl_hash_edge) → stl_file → stl_file
  | [], _, s => s
  | (i, j) :: rest, tbl, s =>
    let f := s.facet i
    let ld := stl_load_edge_exact (f.vertex j) (f.vertex (j + 1))
    let r := insert_hash_edge_table hashFn M stl_record_neighbors tbl s
      ⟨ld.1, i, j + (if ld.2 then 3 else 0)⟩
    check_exact_loop hashFn M rest r.1 r.2

/-- `stl_check_facets_exact` (connect.cpp:65-108): gate on the error flag,
zero the connectivity counters, remove degenerate facets by the swap-with-last
scan, initialize the neighbor rows to unconnected and size the hash table
(`stl_initialize_facet_check_exact`), insert all `3·N` exact edges matching
neighbors as they collide, and tear the table down.  (The re-initialized rows
keep `which_vertex_not` only for slots that get connected, so resetting whole
rows is unobservable.) -/
def stl_check_facets_exact (hashFn : List Word → Nat) (s : stl_file) : stl_file :=
  if s.error then s else
  let st0 := { s.stats with connected_edges := 0,
                            connected_facets_1_edge := 0,
                            connected_facets_2_edge := 0,
                            connected_facets_3_edge := 0 }
  let pr := remove_degenerate_scan [] s.facets 0 0
  let st1 := { st0 with facets_removed := st0.facets_removed + (pr.2.1 : Int),
                        degenerate_facets := st0.degenerate_facets + (pr.2.2 : Int) }
  let st2 := { st1 with malloced := 0, freed := 0, collisions := 0 }
  let M := hash_size_from_nr_faces pr.1.length
  let s1 : stl_file := { facets := pr.1,
                         neighbors := List.replicate pr.1.length stl_neighbors.init,
                         stats := st2, error := s.error }
  check_exact_loop hashFn M
    ((List.range pr.1.length).flatMap (fun i => [(i, 0), (i, 1), (i, 2)]))
    (fun _ => []) s1

/-- One edge of the nearby pass (connect.cpp:270-282): only still-unconnected
edges are hashed, and only when the two endpoints quantize to different
cells. -/
def check_nearby_edge (hashFn : List Word → Nat)
    (quant : stl_vertex → Int × Int × Int) (fuel M : Nat) (i j : Nat)
    (f : stl_facet) (tbl : Nat → List stl_hash_edge) (s : stl_file) :
    (Nat → List stl_hash_edge) × stl_file :=
  if (s.row i).nbr j = -1 then
    match stl_load_edge_nearby quant (f.vertex j) (f.vertex (j + 1)) with
    | some (key, back) =>
      insert_hash_edge_table hashFn M (stl_match_neighbors_nearby fuel) tbl s
        ⟨key, i, j + (if back then 3 else 0)⟩
    | none => (tbl, s)
  else (tbl, s)

/-- The facet loop of the nearby pass (connect.cpp:267-283); the facet is
copied at the top of each iteration, so edges of one facet are keyed on the
coordinates it had before this iteration's snapping. -/
def check_nearby_loop (hashFn : List Word → Nat)
    (quant : stl_vertex → Int × Int × Int) (fuel M : Nat) :
    List Nat → (Nat → List stl_hash_edge) → stl_file → stl_file
  | [], _, s => s
  | i :: rest, tbl, s =>
    let f := s.facet i
    let r1 := check_nearby_edge hashFn quant fuel M i 0 f tbl s
    let r2 := check_nearby_edge hashFn quant fuel M i 1 f r1.1 r1.2
    let r3 := check_nearby_edge hashFn quant fuel M i 2 f r2.1 r2.2
    check_nearby_loop hashFn quant fuel M rest r3.1 r3.2

/-- `stl_check_facets_nearby` (connect.cpp:253-286): gate on the error flag;
return at once when every facet is already fully connected; otherwise size a
fresh table (`stl_initialize_facet_check_nearby`), hash every unconnected edge
on the quantized grid, snapping vertices on every match. -/
def stl_check_facets_nearby (hashFn : List Word → Nat)
    (quant : stl_vertex → Int × Int × Int) (fuel : Nat) (s : stl_file) : stl_file :=
  if s.error then s else
  if s.stats.connected_facets_1_edge = (s.facets.length : Int) ∧
      s.stats.connected_facets_2_edge = (s.facets.length : Int) ∧
      s.stats.connected_facets_3_edge = (s.facets.length : Int) then s
  else
    let st := { s.stats with malloced := 0, freed := 0, collisions := 0 }
    let M := hash_size_from_nr_faces s.facets.length
    check_nearby_loop hashFn quant fuel M (List.range s.facets.length)
      (fun _ => []) { s with stats := st }

/-- One unconnected edge re-hashed by the first loop of `stl_fill_holes`
(connect.cpp:812-823). -/
def fill_pre_edge (hashFn : List Word → Nat) (M : Nat) (i j : Nat)
    (f : stl_facet) (tbl : Nat → List stl_hash_edge) (s : stl_file) :
    (Nat → List stl_hash_edge) × stl_file :=
  if (s.row i).nbr j ≠ -1 then (tbl, s)
  else
    let ld := stl_load_edge_exact (f.vertex j) (f.vertex (j + 1))
    insert_hash_edge_table hashFn M stl_record_neighbors tbl s
      ⟨ld.1, i, j + (if ld.2 then 3 else 0)⟩

/-- The first loop of `stl_fill_holes`: re-hash all still-unconnected edges
into an auxiliary exact-key table. -/
def fill_pre_loop (hashFn : List Word → Nat) (M : Nat) :
    List Nat → (Nat → List stl_hash_edge) → stl_file →
      (Nat → List stl_hash_edge) × stl_file
  | [], tbl, s => (tbl, s)
  | i :: rest, tbl, s =>
    let f := s.facet i
    let r1 := fill_pre_edge hashFn M i 0 f tbl s
    let r2 := fill_pre_edge hashFn M i 1 f r1.1 r1.2
    let r3 := fill_pre_edge hashFn M i 2 f r2.1 r2.2
    fill_pre_loop hashFn M rest r3.1 r3.2

/-- The hole-closing walk of `stl_fill_holes` (connect.cpp:845-893), fuelled:
walk the fan from the open edge; on reaching another open edge, emit the fan
triangle (normal zeroed by `stl_add_facet`) and hash its three edges; on
returning to the first facet, the Möbius diagnostic aborts the whole pass
(`false` in the last component; exhausted fuel aborts the same way). -/
def fill_hole_walk (hashFn : List Word → Nat) (M : Nat) :
    Nat → (Nat → List stl_hash_edge) → stl_file → Nat → Nat → Nat → Nat →
      stl_vertex → stl_vertex → (Nat → List stl_hash_edge) × stl_file × Bool
  | 0, tbl, s, _, _, _, _, _, _ => (tbl, s, false)
  | fuel + 1, tbl, s, first, facet_num, vnot, direction, nv0, nv1 =>
    let e := (fan_next_edge vnot direction).1
    let d := (fan_next_edge vnot direction).2
    let next := (s.row facet_num).nbr e
    if next = -1 then
      let v2 := (s.facet facet_num).vertex (vnot % 3)
      let s1 := stl_add_facet s ⟨⟨0, 0, 0⟩, nv0, nv1, v2, 0⟩
      let ni := s1.facets.length - 1
      let f := s1.facet ni
      let ld0 := stl_load_edge_exact (f.vertex 0) (f.vertex 1)
      let r0 := insert_hash_edge_table hashFn M stl_record_neighbors tbl s1
        ⟨ld0.1, ni, 0 + (if ld0.2 then 3 else 0)⟩
      let ld1 := stl_load_edge_exact (f.vertex 1) (f.vertex 2)
      let r1 := insert_hash_edge_table hashFn M stl_record_neighbors r0.1 r0.2
        ⟨ld1.1, ni, 1 + (if ld1.2 then 3 else 0)⟩
      let ld2 := stl_load_edge_exact (f.vertex 2) (f.vertex 0)
      let r2 := insert_hash_edge_table hashFn M stl_record_neighbors r1.1 r1.2
        ⟨ld2.1, ni, 2 + (if ld2.2 then 3 else 0)⟩
      (r2.1, r2.2, true)
    else
      let vnot' := (s.row facet_num).wvn e
      if next = (first : Int) then (tbl, s, false)
      else fill_hole_walk hashFn M fuel tbl s first next.toNat vnot' d nv0 nv1

/-- One open edge handled by the second loop of `stl_fill_holes`
(connect.cpp:831-843): skip connected edges; start the walk with the
direction chosen by whether the edge on the other side of the starting vertex
was open at the top of this facet's iteration. -/
def fill_hole_edge (hashFn : List Word → Nat) (M fuelW : Nat)
    (tbl : Nat → List stl_hash_edge) (s : stl_file) (i j : Nat)
    (f : stl_facet) (ninit : Int) : (Nat → List stl_hash_edge) × stl_file × Bool :=
  if (s.row i).nbr j ≠ -1 then (tbl, s, true)
  else
    let dir := if ninit = -1 then 1 else 0
    fill_hole_walk hashFn M fuelW tbl s i i ((j + 2) % 3) dir
      (f.vertex j) (f.vertex (j + 1))

/-- The second loop of `stl_fill_holes` (connect.cpp:825-895): the bound
`number_of_facets` is re-read every iteration, so the loop also visits facets
added while filling; fuelled for that reason. -/
def fill_holes_outer (hashFn : List Word → Nat) (M fuelW : Nat) :
    Nat → (Nat → List stl_hash_edge) → stl_file → Nat → stl_file
  | 0, _, s, _ => s
  | fo + 1, tbl, s, i =>
    if i < s.facets.length then
      let f := s.facet i
      let ni0 := (s.row i).nbr 0
      let ni1 := (s.row i).nbr 1
      let ni2 := (s.row i).nbr 2
      let r0 := fill_hole_edge hashFn M fuelW tbl s i 0 f ni2
      if r0.2.2 = false then r0.2.1 else
      let r1 := fill_hole_edge hashFn M fuelW r0.1 r0.2.1 i 1 f ni0
      if r1.2.2 = false then r1.2.1 else
      let r2 := fill_hole_edge hashFn M fuelW r1.1 r1.2.1 i 2 f ni1
      if r2.2.2 = false then r2.2.1 else
      fill_holes_outer hashFn M fuelW fo r2.1 r2.2.1 (i + 1)
    else s

/-- `stl_fill_holes` (connect.cpp:791-896). -/
def stl_fill_holes (hashFn : List Word → Nat) (fuel : Nat) (s : stl_file) : stl_file :=
  if s.error then s else
  let st := { s.stats with malloced := 0, freed := 0, collisions := 0 }
  let M := hash_size_from_nr_faces s.facets.length
  let pre := fill_pre_loop hashFn M (List.range s.facets.length)
    (fun _ => []) { s with stats := st }
  fill_holes_outer hashFn M fuel fuel pre.1 pre.2 0

/-- C10: every core operation is gated on the error flag: with the flag set
on entry, the exact and nearby facet checks, hole filling and facet addition
return the mesh unchanged — facet array, neighbor array and statistics block
included — and the binary and ASCII writers emit nothing. -/
theorem error_flag_gates :
    (∀ (hashFn : List Word → Nat) (s : stl_file), s.error = true →
      stl_check_facets_exact hashFn s = s) ∧
    (∀ (hashFn : List Word → Nat) (quant : stl_vertex → Int × Int × Int)
      (fuel : Nat) (s : stl_file), s.error = true →
      stl_check_facets_nearby hashFn quant fuel s = s) ∧
    (∀ (hashFn : List Word → Nat) (fuel : Nat) (s : stl_file), s.error = true →
      stl_fill_holes hashFn fuel s = s) ∧
    (∀ (s : stl_file) (f : stl_facet), s.error = true → stl_add_facet s f = s) ∧
    (∀ (s : stl_file) (label : List Nat), s.error = true →
      stl_write_binary_run s label = none) ∧
    (∀ (s : stl_file) (label : List Nat), s.error = true →
      stl_write_ascii_run s label = none) := by
  refine ⟨?_, ?_, ?_, ?_, ?_, ?_⟩
  · intro hashFn s h
    simp only [stl_check_facets_exact, h, if_true]
  · intro hashFn quant fuel s h
    simp only [stl_check_facets_nearby, h, if_true]
  · intro hashFn fuel s h
    simp only [stl_fill_holes, h, if_true]
  · intro s f h
    simp only [stl_add_facet, h, if_true]
  · intro s label h
    simp only [stl_write_binary_run, h, if_true]
  · intro s label h
    simp only [stl_write_ascii_run, h, if_true]

/-- Witness for C10: a mesh with the error flag set passes through every
operation untouched. -/
theorem error_flag_gates_witness :
    stl_check_facets_exact (fun _ => 0)
      ⟨[default], [stl_neighbors.init], ⟨0, 0, 0, 0, 0, 0, 0, 0, 0, 0, 0, 0⟩, true⟩
      = ⟨[default], [stl_neighbors.init], ⟨0, 0, 0, 0, 0, 0, 0, 0, 0, 0, 0, 0⟩, true⟩ ∧
    stl_check_facets_nearby (fun _ => 0) (fun _ => (0, 0, 0)) 5
      ⟨[default], [stl_neighbors.init], ⟨0, 0, 0, 0, 0, 0, 0, 0, 0, 0, 0, 0⟩, true⟩
      = ⟨[default], [stl_neighbors.init], ⟨0, 0, 0, 0, 0, 0, 0, 0, 0, 0, 0, 0⟩, true⟩ ∧
    stl_fill_holes (fun _ => 0) 5
      ⟨[default], [stl_neighbors.init], ⟨0, 0, 0, 0, 0, 0, 0, 0, 0, 0, 0, 0⟩, true⟩
      = ⟨[default], [stl_neighbors.init], ⟨0, 0, 0, 0, 0, 0, 0, 0, 0, 0, 0, 0⟩, true⟩ ∧
    stl_add_facet
      ⟨[default], [stl_neighbors.init], ⟨0, 0, 0, 0, 0, 0, 0, 0, 0, 0, 0, 0⟩, true⟩
      default
      = ⟨[default], [stl_neighbors.init], ⟨0, 0, 0, 0, 0, 0, 0, 0, 0, 0, 0, 0⟩, true⟩ ∧
    stl_write_binary_run
      ⟨[default], [stl_neighbors.init], ⟨0, 0, 0, 0, 0, 0, 0, 0, 0, 0, 0, 0⟩, true⟩
      [65] = none ∧
    stl_write_ascii_run
      ⟨[default], [stl_neighbors.init], ⟨0, 0, 0, 0, 0, 0, 0, 0, 0, 0, 0, 0⟩, true⟩
      [65] = none :=
  ⟨error_flag_gates.1 (fun _ => 0) _ rfl,
   error_flag_gates.2.1 (fun _ => 0) (fun _ => (0, 0, 0)) 5 _ rfl,
   error_flag_gates.2.2.1 (fun _ => 0) 5 _ rfl,
   error_flag_gates.2.2.2.1 _ default rfl,
   error_flag_gates.2.2.2.2.1 _ [65] rfl,
   error_flag_gates.2.2.2.2.2 _ [65] rfl⟩

end Admesh
